import Mathlib

/-
Shallow embedding of the strategy decision engine of src/strategy_core.py.

Conventions used throughout this development:
- prices, volumes, percentiles and ratios are modelled over ℚ;
- dates are day numbers (ℤ, days since 1970-01-01), months are the
  month-of-year number the source extracts from a timestamp;
- the source suffix _ratio on identifiers is rendered Frac here;
- fallible collaborator calls return Except String; the try/except wrapper
  of each source function is a separate top-level definition over a Body
  function, mirroring the source control flow;
- Python strings built with f-string interpolation are rendered with
  toString concatenation; the numeric formatting differs from CPython but
  the branch structure deciding which string is returned is preserved.
-/

namespace Yupan

/-- One daily bar of an instrument series; series are listed oldest to
newest as in the source, so quote[-1] is the last element.  The optional
fields model data sources that precompute the indicators. -/
structure Bar where
  close : ℚ
  high : ℚ
  volume : ℚ
  ma20 : Option ℚ
  volumeMa5 : Option ℚ
deriving Repr, DecidableEq

/-- Negative indexing from the end of a series: fromEnd q 0 is quote[-1],
fromEnd q 1 is quote[-2], fromEnd q 2 is quote[-3]. -/
def fromEnd (q : List Bar) (k : Nat) : Option Bar := q.reverse[k]?

/-- The three capital sleeves ('stable' / 'aggressive' / 'arbitrage'). -/
inductive Sleeve where
  | stable
  | aggressive
  | arbitrage
deriving Repr, DecidableEq, BEq

/-- A candidate instrument as consumed from the candidate pool. -/
structure Candidate where
  code : String
  volume : ℚ
deriving Repr, DecidableEq

/-- A realtime quote dict; every field the source reads is optional
because the source tests membership before most accesses. -/
structure RtQuote where
  price : Option ℚ
  iopv : Option ℚ
  volume : Option ℚ
deriving Repr, DecidableEq

/-- An industry policy event record. -/
structure Policy where
  date : ℤ
  impact : String
  title : String
deriving Repr, DecidableEq

/-- A corporate event record for the event arbitrage detector. -/
structure EventInfo where
  date : ℤ
  type : String
deriving Repr, DecidableEq

/-- A stable / aggressive sleeve position snapshot. -/
structure Position where
  code : String
  volume : ℚ
  positionFrac : ℚ
  buyPrice : ℚ
  buyDate : ℤ
  lastAddDate : Option ℤ
deriving Repr, DecidableEq

/-- An arbitrage sleeve position snapshot. -/
structure ArbPosition where
  code : String
  etf : Candidate
  direction : String
  openPrice : ℚ
  openDate : ℤ
  expectedReturn : ℚ
deriving Repr, DecidableEq

/-- The per-sleeve position map loaded from and saved to the state store. -/
structure Positions where
  stable : Option Position
  aggressive : Option Position
  arbitrage : Option ArbPosition
deriving Repr, DecidableEq

/-- A persisted trade record.  The source stores a timestamp string and
filters on its parsed month; the month field models that projection. -/
structure TradeRecord where
  type : String
  position : Sleeve
  etfCode : String
  amount : ℚ
  reason : String
  month : Nat
deriving Repr, DecidableEq

/-- The market data provider and candidate pool collaborators.  Each call
may fail, modelling ProviderError; a data dict with an absent key is an
Option none. -/
structure Fetcher where
  getEtfQuote : String → Except String (List Bar)
  getEtfValuation : String → Except String (Option ℚ)
  getIndustrySentiment : String → Except String ℚ
  getEtfRealTimeData : String → Except String (Option RtQuote)
  getEtfProblematicStocks : String → Except String (List String)
  getIndustryPolicies : String → Except String (List Policy)
  getEtfEvents : String → Except String (List EventInfo)
  getEtfPool : Except String (List Candidate)
  getRelatedEtfs : String → Except String (List Candidate)
  getStableCandidates : List Candidate
  getAggressiveCandidates : List Candidate

/-- Capital constants from config.py. -/
def STABLE_CAPITAL : ℚ := 12000

def AGGRESSIVE_CAPITAL : ℚ := 8000

def ARBITRAGE_CAPITAL : ℚ := 2000

/-- Day number of 2000-01-01, the default last_add_date of the source. -/
def d20000101 : ℤ := 10957

/-- The 20 day moving average used by the buy check: the precomputed field
when present, otherwise the last window of np.convolve over the closes,
which is the mean of the last 20 closes. -/
def buyMa20of (q : List Bar) : ℚ :=
  match fromEnd q 0 with
  | some latest =>
    match latest.ma20 with
    | some m => m
    | none => (((q.reverse.take 20).map Bar.close).sum) / 20
  | none => 0

/-- The 5 day volume baseline used by the buy check: the precomputed field
when present, otherwise sum of the last five volumes divided by 5. -/
def buyVolumeMa5of (q : List Bar) : ℚ :=
  match fromEnd q 0 with
  | some latest =>
    match latest.volumeMa5 with
    | some v => v
    | none => (((q.reverse.take 5).map Bar.volume).sum) / 5
  | none => 0

/-- The buy check trend test: ma20 > quote[-3].ma20 when that bar carries
the field, defaulting to true when it does not. -/
def buyMaTrendUp (q : List Bar) (ma20 : ℚ) : Bool :=
  match fromEnd q 2 with
  | some bar3 =>
    match bar3.ma20 with
    | some m3 => decide (m3 < ma20)
    | none => true
  | none => true

/-- Body of _check_basic_buy_conditions, before the try/except wrapper. -/
def checkBasicBuyConditionsBody (f : Fetcher) (etfCode : String)
    (positionType : Sleeve) : Except String (Bool × String) := do
  let quote ← f.getEtfQuote etfCode
  if quote.length < 20 then
    pure (false, "基础买入条件不满足：行情数据不足20天")
  else
    match fromEnd quote 0, fromEnd quote 1 with
    | some latest, some prevDay =>
      let ma20 := buyMa20of quote
      let priceAboveMa := decide (ma20 < latest.close) && decide (ma20 < prevDay.close)
      let maTrendUp := buyMaTrendUp quote ma20
      if !(priceAboveMa && maTrendUp) then
        pure (false, "基础买入条件不满足：未形成有效均线突破趋势")
      else
        let volumeMa5 := buyVolumeMa5of quote
        if !(decide (volumeMa5 * 1.2 ≤ latest.volume)) then
          pure (false, "基础买入条件不满足：量能未有效放大")
        else
          match positionType with
          | .stable => do
            let valuation ← f.getEtfValuation etfCode
            let pePercentile := valuation.getD 100
            if 60 ≤ pePercentile then
              pure (false, "稳健仓买入条件不满足：PE百分位" ++ toString pePercentile ++ "%≥60%")
            else
              pure (true, "所有基础买入条件均满足")
          | .aggressive => do
            let industrySentiment ← f.getIndustrySentiment etfCode
            if industrySentiment ≤ 0 then
              pure (false, "激进仓买入条件不满足：行业景气度" ++ toString industrySentiment ++ "≤中性")
            else
              pure (true, "所有基础买入条件均满足")
          | .arbitrage => pure (true, "所有基础买入条件均满足")
    | _, _ => pure (false, "基础买入条件不满足：行情数据不足20天")

/-- _check_basic_buy_conditions: any raised error downgrades the check. -/
def checkBasicBuyConditions (f : Fetcher) (etfCode : String)
    (positionType : Sleeve) : Bool × String :=
  match checkBasicBuyConditionsBody f etfCode positionType with
  | .ok r => r
  | .error e => (false, "检查基础买入条件出错：" ++ e)

/-- The ma20 used by the sell and add checks: the precomputed field when
present, otherwise np.mean of the last at most 20 closes. -/
def ma20MeanOf (q : List Bar) : ℚ :=
  match fromEnd q 0 with
  | some latest =>
    match latest.ma20 with
    | some m => m
    | none =>
      let closes := (q.reverse.take 20).map Bar.close
      closes.sum / (closes.length : ℚ)
  | none => 0

/-- The sell check trend test: ma20 < quote[-3].ma20 when that bar carries
the field, defaulting to false when it does not. -/
def sellMaTrendDown (bar3 : Bar) (ma20 : ℚ) : Bool :=
  match bar3.ma20 with
  | some m3 => decide (ma20 < m3)
  | none => false

/-- Per-sleeve take-profit thresholds of the sell check. -/
def sellTargetProfit : Sleeve → ℚ
  | .stable => 0.15
  | .aggressive => 0.25
  | .arbitrage => 0.05

/-- Per-sleeve stop-loss thresholds of the sell check. -/
def sellStopLoss : Sleeve → ℚ
  | .stable => -0.05
  | .aggressive => -0.08
  | .arbitrage => -0.02

/-- The kind of a triggered sell, the third component of the source
tuple ('profit_take' / 'stop_loss' / 'technical'). -/
inductive SellKind where
  | profitTake
  | stopLoss
  | technical
deriving Repr, DecidableEq

/-- Body of _check_basic_sell_conditions, before the try/except wrapper.
With a series of exactly two bars the quote[-3] access raises IndexError,
modelled by the throw branch. -/
def checkBasicSellConditionsBody (f : Fetcher) (etfCode : String)
    (buyPrice : ℚ) (positionType : Sleeve) :
    Except String (Bool × String × Option SellKind) := do
  let quote ← f.getEtfQuote etfCode
  match fromEnd quote 0 with
  | none => pure (false, "无行情数据", none)
  | some latest =>
    if buyPrice = 0 then throw "float division by zero"
    else
      let returnFrac := (latest.close - buyPrice) / buyPrice
      let targetProfit := sellTargetProfit positionType
      if targetProfit ≤ returnFrac then
        pure (true, "达到止盈线" ++ toString (targetProfit * 100) ++ "%（当前收益"
          ++ toString (returnFrac * 100) ++ "%）", some .profitTake)
      else
        let stopLine := sellStopLoss positionType
        if returnFrac ≤ stopLine then
          pure (true, "达到止损线" ++ toString (stopLine * 100) ++ "%（当前亏损"
            ++ toString (returnFrac * 100) ++ "%）", some .stopLoss)
        else
          let ma20 := ma20MeanOf quote
          if 2 ≤ quote.length then
            match fromEnd quote 1, fromEnd quote 2 with
            | some prevDay, some bar3 =>
              let priceBelowMa := decide (latest.close < ma20) && decide (prevDay.close < ma20)
              let maTrendDown := sellMaTrendDown bar3 ma20
              if priceBelowMa && maTrendDown then
                pure (true, "价格连续2日跌破20日均线且均线走弱", some .technical)
              else
                pure (false, "未满足任何卖出条件", none)
            | some _, none => throw "list index out of range"
            | none, _ => pure (false, "未满足任何卖出条件", none)
          else
            pure (false, "未满足任何卖出条件", none)

/-- _check_basic_sell_conditions: any raised error downgrades the check. -/
def checkBasicSellConditions (f : Fetcher) (etfCode : String)
    (buyPrice : ℚ) (positionType : Sleeve) : Bool × String × Option SellKind :=
  match checkBasicSellConditionsBody f etfCode buyPrice positionType with
  | .ok r => r
  | .error e => (false, "检查基础卖出条件出错：" ++ e, none)

/-- The 5 day volume baseline of the add check: np.mean of the last at
most 5 volumes. -/
def volumeMa5MeanOf (q : List Bar) : ℚ :=
  let volumes := (q.reverse.take 5).map Bar.volume
  volumes.sum / (volumes.length : ℚ)

/-- Body of _check_add_position_conditions, before the try/except wrapper. -/
def checkAddPositionConditionsBody (f : Fetcher) (today : ℤ) (etfCode : String)
    (lastAddDate : ℤ) : Except String (Bool × String) := do
  let daysSinceLastAdd := today - lastAddDate
  if daysSinceLastAdd < 5 then
    pure (false, "加仓条件不满足：距离上次加仓仅" ++ toString daysSinceLastAdd ++ "天＜5天")
  else do
    let quote ← f.getEtfQuote etfCode
    if quote.length < 2 then
      pure (false, "加仓条件不满足：行情数据不足")
    else
      match fromEnd quote 0, (quote.reverse.take 10).map Bar.high with
      | some latest, h :: hs =>
        let recentHigh := hs.foldl max h
        if recentHigh = 0 then throw "float division by zero"
        else
          let pullbackFrac := (recentHigh - latest.close) / recentHigh
          let ma20 := ma20MeanOf quote
          if decide (0.05 < pullbackFrac) || decide (latest.close < ma20) then
            pure (false, "加仓条件不满足：回调幅度" ++ toString pullbackFrac ++ "＞5%或跌破均线")
          else
            let volumeMa5 :=
              match latest.volumeMa5 with
              | some v => v
              | none => volumeMa5MeanOf quote
            if volumeMa5 = 0 then throw "float division by zero"
            else
              let volumeFrac := latest.volume / volumeMa5
              if !(decide ((0.7 : ℚ) ≤ volumeFrac) && decide (volumeFrac ≤ 1.3)) then
                pure (false, "加仓条件不满足：成交量波动过大（当前/均量=" ++ toString volumeFrac ++ "）")
              else
                pure (true, "所有加仓条件均满足")
      | _, _ => pure (false, "加仓条件不满足：行情数据不足")

/-- _check_add_position_conditions: any raised error downgrades the check. -/
def checkAddPositionConditions (f : Fetcher) (today : ℤ) (etfCode : String)
    (lastAddDate : ℤ) : Bool × String :=
  match checkAddPositionConditionsBody f today etfCode lastAddDate with
  | .ok r => r
  | .error e => (false, "检查加仓条件出错：" ++ e)

/-- Body of _check_liquidation_conditions, before the try/except wrapper. -/
def checkLiquidationConditionsBody (f : Fetcher) (today : ℤ)
    (positions : Positions) (etfCode : String) (positionType : Sleeve) :
    Except String (Bool × String) := do
  let problematicStocks ← f.getEtfProblematicStocks etfCode
  if 3 ≤ problematicStocks.length then
    pure (true, "成分股暴雷" ++ toString problematicStocks.length ++ "只≥3只，触发清仓")
  else do
    let policies ← f.getIndustryPolicies etfCode
    match policies.find? (fun p => p.impact == "重大利空" && decide (today - p.date ≤ 5)) with
    | some p => pure (true, "近5天内出现重大利空政策：" ++ p.title)
    | none =>
      if positionType == Sleeve.arbitrage then
        match positions.arbitrage with
        | some position =>
          let holdDays := today - position.openDate
          if 3 ≤ holdDays then
            pure (true, "套利仓持仓" ++ toString holdDays ++ "天≥3天，强制清仓")
          else
            pure (false, "未满足清仓条件")
        | none => pure (false, "未满足清仓条件")
      else
        pure (false, "未满足清仓条件")

/-- _check_liquidation_conditions: any raised error downgrades the check. -/
def checkLiquidationConditions (f : Fetcher) (today : ℤ) (positions : Positions)
    (etfCode : String) (positionType : Sleeve) : Bool × String :=
  match checkLiquidationConditionsBody f today positions etfCode positionType with
  | .ok r => r
  | .error e => (false, "检查清仓条件出错：" ++ e)

/-- Body of _check_market_environment.  The benchmark index series is the
only input this classification depends on, so the collaborator call is
passed directly. -/
def checkMarketEnvironmentBody (getIndexQuote : String → Except String (List Bar)) :
    Except String String := do
  let hs300 ← getIndexQuote "000300.SH"
  if hs300.length < 22 then
    pure "shock"
  else
    match fromEnd hs300 21, fromEnd hs300 0 with
    | some monthAgo, some latest =>
      if monthAgo.close = 0 then throw "float division by zero"
      else
        let monthReturn := (latest.close - monthAgo.close) / monthAgo.close
        if (0.05 : ℚ) ≤ monthReturn then pure "bull"
        else if monthReturn ≤ -0.05 then pure "bear"
        else pure "shock"
    | _, _ => pure "shock"

/-- _check_market_environment: any raised error defaults to shock. -/
def checkMarketEnvironment (getIndexQuote : String → Except String (List Bar)) : String :=
  match checkMarketEnvironmentBody getIndexQuote with
  | .ok r => r
  | .error _ => "shock"

/-- The monthly switch counter of _check_intra_position_switch: records of
type switch for the sleeve whose parsed timestamp month equals the current
month. -/
def monthlySwitchCount (tradeHistory : List TradeRecord) (positionType : Sleeve)
    (month : Nat) : Nat :=
  (tradeHistory.filter (fun t =>
    t.type == "switch" && t.position == positionType && t.month == month)).length

/-- The candidate scoring loop of _check_intra_position_switch: keeps the
strictly best total score, starting from score 0 and no candidate. -/
def bestSwitchCandidate (f : Fetcher) (positionType : Sleeve) (currentCode : String) :
    List Candidate → Option Candidate → ℚ → Except String (Option Candidate)
  | [], best, _ => pure best
  | c :: rest, best, bestScore =>
    if c.code == currentCode then
      bestSwitchCandidate f positionType currentCode rest best bestScore
    else
      match checkBasicBuyConditions f c.code positionType with
      | (false, _) => bestSwitchCandidate f positionType currentCode rest best bestScore
      | (true, _) => do
        let liquidityScore := min (c.volume / 10000000) 20
        let valuation ← f.getEtfValuation c.code
        match valuation with
        | none => throw "pe_percentile"
        | some pe =>
          let valScore : ℚ := if pe < 40 then 30 else 15
          let totalScore := 50 + liquidityScore + valScore
          if bestScore < totalScore then
            bestSwitchCandidate f positionType currentCode rest (some c) totalScore
          else
            bestSwitchCandidate f positionType currentCode rest best bestScore

/-- Body of _check_intra_position_switch, before the try/except wrapper. -/
def checkIntraPositionSwitchBody (f : Fetcher) (month : Nat)
    (tradeHistory : List TradeRecord) (current : Position)
    (candidates : List Candidate) (positionType : Sleeve) :
    Except String (Option Candidate × String) := do
  let sellRes := checkBasicSellConditions f current.code current.buyPrice positionType
  if !sellRes.1 then
    pure (none, "当前持仓未满足卖出条件，无需调仓")
  else
    let n := monthlySwitchCount tradeHistory positionType month
    if 3 ≤ n then
      pure (none, "本月已调仓" ++ toString n ++ "次≥3次，限制调仓")
    else do
      let best ← bestSwitchCandidate f positionType current.code candidates none 0
      match best with
      | some c => pure (some c, "当前持仓需卖出（" ++ sellRes.2.1 ++ "），找到更优替代标的")
      | none => pure (none, "未找到符合条件的替代标的")

/-- _check_intra_position_switch: any raised error downgrades the check. -/
def checkIntraPositionSwitch (f : Fetcher) (month : Nat)
    (tradeHistory : List TradeRecord) (current : Position)
    (candidates : List Candidate) (positionType : Sleeve) :
    Option Candidate × String :=
  match checkIntraPositionSwitchBody f month tradeHistory current candidates positionType with
  | .ok r => r
  | .error e => (none, "检查同类型调仓条件出错：" ++ e)

/-- One candidate arbitrage opportunity, tagged by its kind
('premium' / 'event' / 'cross_market'). -/
inductive ArbOpportunity where
  | premium (etf : Candidate) (premiumFrac expectedReturn : ℚ)
      (direction : String) (reason : String)
  | event (etf : Candidate) (ev : EventInfo) (expectedReturn : ℚ) (reason : String)
  | crossMarket (mainEtf relatedEtf : Candidate) (spreadFrac expectedReturn : ℚ)
      (reason : String)
deriving Repr, DecidableEq

/-- The expected_return field of an opportunity. -/
def ArbOpportunity.expectedReturn : ArbOpportunity → ℚ
  | .premium _ _ er _ _ => er
  | .event _ _ er _ => er
  | .crossMarket _ _ _ er _ => er

/-- The type tag of an opportunity as the source stores it. -/
def ArbOpportunity.kind : ArbOpportunity → String
  | .premium _ _ _ _ _ => "premium"
  | .event _ _ _ _ => "event"
  | .crossMarket _ _ _ _ _ => "cross_market"

/-- Body of _check_premium_arbitrage, before the try/except wrapper. -/
def checkPremiumArbitrageBody (f : Fetcher) (etf : Candidate) :
    Except String (Option ArbOpportunity) := do
  let quoteOpt ← f.getEtfRealTimeData etf.code
  match quoteOpt with
  | none => pure none
  | some quote =>
    match quote.iopv, quote.price with
    | some iopv, some price =>
      if iopv = 0 then throw "float division by zero"
      else
        let premiumFrac := (price - iopv) / iopv
        if decide ((0.01 : ℚ) ≤ |premiumFrac|) && decide ((5000000 : ℚ) ≤ quote.volume.getD 0) then
          let expectedReturn := |premiumFrac| - 0.001
          if 0 < expectedReturn then
            pure (some (.premium etf premiumFrac expectedReturn
              (if premiumFrac < -0.01 then "buy" else "sell")
              ("折溢价率" ++ toString premiumFrac)))
          else
            pure none
        else
          pure none
    | _, _ => pure none

/-- _check_premium_arbitrage: any raised error yields no opportunity. -/
def checkPremiumArbitrage (f : Fetcher) (etf : Candidate) : Option ArbOpportunity :=
  match checkPremiumArbitrageBody f etf with
  | .ok r => r
  | .error _ => none

/-- Priority table of the event arbitrage detector. -/
def eventPriorityOf (ev : EventInfo) : Nat :=
  if ev.type == "份额折算" then 3
  else if ev.type == "分红" then 2
  else if ev.type == "成分股调整" then 1
  else 0

/-- Stable insertion preserving the original order among equal keys, used
to model the stable descending sorts of the source. -/
def insertByDesc (gtB : α → α → Bool) (x : α) : List α → List α
  | [] => [x]
  | y :: ys => if gtB y x then y :: insertByDesc gtB x ys else x :: y :: ys

/-- Stable descending sort, modelling list.sort(key=..., reverse=True). -/
def sortByDesc (gtB : α → α → Bool) : List α → List α
  | [] => []
  | x :: xs => insertByDesc gtB x (sortByDesc gtB xs)

/-- Body of _check_event_arbitrage, before the try/except wrapper. -/
def checkEventArbitrageBody (f : Fetcher) (today : ℤ) (etf : Candidate) :
    Except String (Option ArbOpportunity) := do
  let events ← f.getEtfEvents etf.code
  if events.isEmpty then
    pure none
  else
    let validEvents := events.filter (fun ev =>
      decide (0 ≤ ev.date - today) && decide (ev.date - today ≤ 3))
    match sortByDesc (fun a b => decide (eventPriorityOf b < eventPriorityOf a)) validEvents with
    | bestEvent :: _ =>
      pure (some (.event etf bestEvent 0.015
        (toString bestEvent.date ++ " " ++ bestEvent.type)))
    | [] => pure none

/-- _check_event_arbitrage: any raised error yields no opportunity. -/
def checkEventArbitrage (f : Fetcher) (today : ℤ) (etf : Candidate) : Option ArbOpportunity :=
  match checkEventArbitrageBody f today etf with
  | .ok r => r
  | .error _ => none

/-- The collection loop of _check_cross_market_arbitrage over the related
instruments; a provider error inside the loop propagates to the wrapper. -/
def crossMarketCollect (f : Fetcher) (etf : Candidate) (mainData : RtQuote)
    (mainPrice : ℚ) : List Candidate → Except String (List ArbOpportunity)
  | [] => pure []
  | related :: rest => do
    let relatedDataOpt ← f.getEtfRealTimeData related.code
    match relatedDataOpt with
    | none => crossMarketCollect f etf mainData mainPrice rest
    | some relatedData =>
      match relatedData.price with
      | none => crossMarketCollect f etf mainData mainPrice rest
      | some relatedPrice =>
        if relatedPrice = 0 then throw "float division by zero"
        else
          let spreadFrac := (mainPrice - relatedPrice) / relatedPrice
          if decide ((0.005 : ℚ) ≤ |spreadFrac|) &&
              decide ((3000000 : ℚ) ≤ mainData.volume.getD 0) &&
              decide ((3000000 : ℚ) ≤ relatedData.volume.getD 0) then do
            let tail ← crossMarketCollect f etf mainData mainPrice rest
            pure (.crossMarket etf related spreadFrac (|spreadFrac| - 0.002)
              ("价差" ++ toString spreadFrac) :: tail)
          else
            crossMarketCollect f etf mainData mainPrice rest

/-- Python max with a key returns the first element attaining the maximum. -/
def maxByExpectedReturn : List ArbOpportunity → Option ArbOpportunity
  | [] => none
  | o :: rest =>
    match maxByExpectedReturn rest with
    | none => some o
    | some m => if m.expectedReturn > o.expectedReturn then some m else some o

/-- Body of _check_cross_market_arbitrage, before the try/except wrapper. -/
def checkCrossMarketArbitrageBody (f : Fetcher) (etf : Candidate) :
    Except String (Option ArbOpportunity) := do
  let relatedEtfs ← f.getRelatedEtfs etf.code
  if relatedEtfs.isEmpty then
    pure none
  else do
    let mainDataOpt ← f.getEtfRealTimeData etf.code
    match mainDataOpt with
    | none => pure none
    | some mainData =>
      match mainData.price with
      | none => pure none
      | some mainPrice => do
        let opportunities ← crossMarketCollect f etf mainData mainPrice relatedEtfs
        pure (maxByExpectedReturn opportunities)

/-- _check_cross_market_arbitrage: any raised error yields no opportunity. -/
def checkCrossMarketArbitrage (f : Fetcher) (etf : Candidate) : Option ArbOpportunity :=
  match checkCrossMarketArbitrageBody f etf with
  | .ok r => r
  | .error _ => none

/-- Detector collection loop of _check_arbitrage_opportunity, pairing each
hit with its fixed priority (premium 3, event 2, cross market 1). -/
def collectAllOpportunities (f : Fetcher) (today : ℤ) :
    List Candidate → List (ArbOpportunity × Nat)
  | [] => []
  | etf :: rest =>
    ((checkPremiumArbitrage f etf).toList.map (fun o => (o, 3)) ++
     (checkEventArbitrage f today etf).toList.map (fun o => (o, 2)) ++
     (checkCrossMarketArbitrage f etf).toList.map (fun o => (o, 1))) ++
    collectAllOpportunities f today rest

/-- Descending comparison on (priority, expected_return) pairs. -/
def oppPairGTb (a b : ArbOpportunity × Nat) : Bool :=
  decide (b.2 < a.2) || (a.2 == b.2 && decide (b.1.expectedReturn < a.1.expectedReturn))

/-- The deduplication loop of _check_arbitrage_opportunity: an opportunity
is kept when its kind is new or fewer than 3 kinds have been seen; the
seen set is modelled as a duplicate-free list. -/
def dedupSeen : List ArbOpportunity → List String → List ArbOpportunity
  | [], _ => []
  | opp :: rest, seenTypes =>
    if !(seenTypes.contains opp.kind) || decide (seenTypes.length < 3) then
      opp :: dedupSeen rest
        (if seenTypes.contains opp.kind then seenTypes else opp.kind :: seenTypes)
    else
      dedupSeen rest seenTypes

/-- The ranking pipeline of _check_arbitrage_opportunity after the hits are
gathered: stable sort by (priority, expected_return) descending, drop the
hits below the 0.003 floor, deduplicate kinds, keep at most 3. -/
def combineOpportunities (allOpportunities : List (ArbOpportunity × Nat)) :
    List ArbOpportunity :=
  let sorted := sortByDesc oppPairGTb allOpportunities
  let validOpps := (sorted.filter (fun p => (0.003 : ℚ) ≤ p.1.expectedReturn)).map Prod.fst
  (dedupSeen validOpps []).take 3

/-- Body of _check_arbitrage_opportunity, before the try/except wrapper. -/
def checkArbitrageOpportunityBody (f : Fetcher) (today : ℤ) :
    Except String (List ArbOpportunity) := do
  let etfPool ← f.getEtfPool
  pure (combineOpportunities (collectAllOpportunities f today etfPool))

/-- _check_arbitrage_opportunity: any raised error yields no opportunities. -/
def checkArbitrageOpportunity (f : Fetcher) (today : ℤ) : List ArbOpportunity :=
  match checkArbitrageOpportunityBody f today with
  | .ok r => r
  | .error _ => []

/-- A stable or aggressive sleeve decision dict.  sellPart renders the
source action partial_sell; the bool on sell is the full_liquidation flag. -/
inductive SADecision where
  | hold (etf : Option Position) (reason : String)
  | buy (etf : Candidate) (reason : String) (amount : ℚ) (posFrac : ℚ)
  | sell (etf : Position) (reason : String) (fullLiquidation : Bool)
  | sellPart (etf : Position) (reason : String) (sellFrac remainingFrac : ℚ)
  | switch (sellEtf : Position) (buyEtf : Candidate) (reason : String) (amount : ℚ)
  | add (etf : Position) (reason : String) (amount newFrac : ℚ) (lastAddDate : ℤ)
deriving Repr, DecidableEq

/-- An arbitrage sleeve decision dict.  For openTrade the action string is
the order direction, as in the source. -/
inductive ArbDecision where
  | hold (etf : Option Candidate) (reason : String)
  | close (etf : Candidate) (reason : String)
  | openTrade (action : String) (etf : Candidate) (kind : String)
      (amount expectedReturn : ℚ) (reason : String) (openDate : ℤ) (openPrice : ℚ)
  | pairTrade (mainEtf relatedEtf : Candidate) (kind : String)
      (amount expectedReturn : ℚ) (reason : String) (openDate : ℤ)
deriving Repr, DecidableEq

/-- The candidate scan of the empty-sleeve branch: first candidate passing
the buy check, with its reason. -/
def findFirstBuy (f : Fetcher) (sleeve : Sleeve) :
    List Candidate → Option (Candidate × String)
  | [] => none
  | c :: rest =>
    match checkBasicBuyConditions f c.code sleeve with
    | (true, reason) => some (c, reason)
    | (false, _) => findFirstBuy f sleeve rest

/-- evaluate_stable_position. -/
def evaluateStablePosition (f : Fetcher) (today : ℤ) (month : Nat)
    (positions : Positions) (tradeHistory : List TradeRecord) : SADecision :=
  let candidates := f.getStableCandidates
  match positions.stable with
  | none =>
    match findFirstBuy f .stable candidates with
    | some (c, reason) => .buy c reason (STABLE_CAPITAL * 0.3) 0.3
    | none => .hold none "无符合条件的稳健仓买入标的"
  | some current =>
    let liq := checkLiquidationConditions f today positions current.code .stable
    if liq.1 then
      .sell current liq.2 true
    else
      let sellRes := checkBasicSellConditions f current.code current.buyPrice .stable
      if sellRes.1 then
        if 0.3 < current.positionFrac then
          .sellPart current sellRes.2.1 0.5 (current.positionFrac * 0.5)
        else
          .sell current sellRes.2.1 false
      else
        let sw := checkIntraPositionSwitch f month tradeHistory current candidates .stable
        match sw.1 with
        | some best => .switch current best sw.2 (STABLE_CAPITAL * 0.3)
        | none =>
          let lastAdd := current.lastAddDate.getD d20000101
          let addRes := checkAddPositionConditions f today current.code lastAdd
          if addRes.1 && decide (current.positionFrac < 0.7) then
            let addFrac := min 0.2 (0.7 - current.positionFrac)
            .add current addRes.2 (STABLE_CAPITAL * addFrac)
              (current.positionFrac + addFrac) today
          else
            .hold (some current) "稳健仓持仓符合持有条件，无需操作"

/-- evaluate_aggressive_position. -/
def evaluateAggressivePosition (f : Fetcher) (today : ℤ) (month : Nat)
    (positions : Positions) (tradeHistory : List TradeRecord) : SADecision :=
  let candidates := f.getAggressiveCandidates
  match positions.aggressive with
  | none =>
    match findFirstBuy f .aggressive candidates with
    | some (c, reason) => .buy c reason (AGGRESSIVE_CAPITAL * 0.2) 0.2
    | none => .hold none "无符合条件的激进仓买入标的"
  | some current =>
    let liq := checkLiquidationConditions f today positions current.code .aggressive
    if liq.1 then
      .sell current liq.2 true
    else
      let sellRes := checkBasicSellConditions f current.code current.buyPrice .aggressive
      if sellRes.1 then
        .sell current sellRes.2.1 false
      else
        let sw := checkIntraPositionSwitch f month tradeHistory current candidates .aggressive
        match sw.1 with
        | some best => .switch current best sw.2 (AGGRESSIVE_CAPITAL * 0.2)
        | none =>
          let lastAdd := current.lastAddDate.getD d20000101
          let addRes := checkAddPositionConditions f today current.code lastAdd
          if addRes.1 && decide (current.positionFrac < 0.6) then
            let addFrac := min 0.15 (0.6 - current.positionFrac)
            .add current addRes.2 (AGGRESSIVE_CAPITAL * addFrac)
              (current.positionFrac + addFrac) today
          else
            .hold (some current) "激进仓持仓符合持有条件，无需操作"

/-- evaluate_arbitrage_position.  The profit check fetches the realtime
quote outside any try/except in the source, so a provider error there
propagates out of the sleeve evaluation; the Except result models that. -/
def evaluateArbitragePosition (f : Fetcher) (today : ℤ) (positions : Positions) :
    Except String ArbDecision := do
  let opportunities := checkArbitrageOpportunity f today
  match positions.arbitrage with
  | some current => do
    let liq := checkLiquidationConditions f today positions current.code .arbitrage
    if liq.1 then
      pure (.close current.etf liq.2)
    else do
      let rtOpt ← f.getEtfRealTimeData current.etf.code
      match rtOpt with
      | none => throw "NoneType object is not subscriptable"
      | some rt =>
        match rt.price with
        | none => throw "price"
        | some currentPrice =>
          if current.openPrice = 0 then throw "float division by zero"
          else
            let returnFrac := (currentPrice - current.openPrice) / current.openPrice
            if current.expectedReturn * 0.8 ≤ returnFrac then
              pure (.close current.etf ("达到预期收益80%（当前" ++ toString returnFrac ++ "）"))
            else
              pure (.hold (some current.etf) "套利条件仍满足")
  | none =>
    match opportunities with
    | bestOpp :: _ =>
      let investAmount := min (ARBITRAGE_CAPITAL * 0.3) ARBITRAGE_CAPITAL
      (match bestOpp with
       | .premium etf _ expectedReturn direction reason => do
          let rtOpt ← f.getEtfRealTimeData etf.code
          match rtOpt with
          | none => throw "NoneType object is not subscriptable"
          | some rt =>
            match rt.price with
            | none => throw "price"
            | some openPrice =>
              pure (.openTrade direction etf "premium" investAmount expectedReturn
                reason today openPrice)
       | .event etf _ expectedReturn reason => do
          let rtOpt ← f.getEtfRealTimeData etf.code
          match rtOpt with
          | none => throw "NoneType object is not subscriptable"
          | some rt =>
            match rt.price with
            | none => throw "price"
            | some openPrice =>
              pure (.openTrade "buy" etf "event" investAmount expectedReturn
                reason today openPrice)
       | .crossMarket mainEtf relatedEtf _ expectedReturn reason =>
          pure (.pairTrade mainEtf relatedEtf "cross_market" (investAmount / 2)
            expectedReturn reason today))
    | [] => pure (.hold none "无符合条件的套利机会（预期收益≥0.3%）")

/-- The action string of a stable / aggressive decision dict. -/
def saActionName : SADecision → String
  | .hold _ _ => "hold"
  | .buy _ _ _ _ => "buy"
  | .sell _ _ _ => "sell"
  | .sellPart _ _ _ _ => "partial_sell"
  | .switch _ _ _ _ => "switch"
  | .add _ _ _ _ _ => "add"

/-- The code the summary prints for a stable / aggressive decision: the
code of its etf entry, or empty when the dict has no etf key (switch). -/
def saSummaryCode : SADecision → String
  | .hold (some p) _ => p.code
  | .hold none _ => ""
  | .buy c _ _ _ => c.code
  | .sell p _ _ => p.code
  | .sellPart p _ _ _ => p.code
  | .switch _ _ _ _ => ""
  | .add p _ _ _ _ => p.code

/-- The reason string of a stable / aggressive decision dict. -/
def saReason : SADecision → String
  | .hold _ r => r
  | .buy _ r _ _ => r
  | .sell _ r _ => r
  | .sellPart _ r _ _ => r
  | .switch _ _ r _ => r
  | .add _ r _ _ _ => r

/-- The action string of an arbitrage decision dict. -/
def arbActionName : ArbDecision → String
  | .hold _ _ => "hold"
  | .close _ _ => "close"
  | .openTrade a _ _ _ _ _ _ _ => a
  | .pairTrade _ _ _ _ _ _ _ => "pair_trade"

/-- The code the summary prints for an arbitrage decision. -/
def arbSummaryCode : ArbDecision → String
  | .hold (some c) _ => c.code
  | .hold none _ => ""
  | .close c _ => c.code
  | .openTrade _ c _ _ _ _ _ _ => c.code
  | .pairTrade _ _ _ _ _ _ _ => ""

/-- The reason string of an arbitrage decision dict. -/
def arbReason : ArbDecision → String
  | .hold _ r => r
  | .close _ r => r
  | .openTrade _ _ _ _ _ r _ _ => r
  | .pairTrade _ _ _ _ _ r _ => r

/-- _generate_summary: one line per sleeve whose action is not hold. -/
def generateSummary (stable aggressive : SADecision) (arbitrage : ArbDecision) : String :=
  let lines :=
    (if saActionName stable != "hold" then
      ["稳健仓: " ++ saActionName stable ++ " " ++ saSummaryCode stable ++
        " (" ++ saReason stable ++ ")"]
     else []) ++
    (if saActionName aggressive != "hold" then
      ["激进仓: " ++ saActionName aggressive ++ " " ++ saSummaryCode aggressive ++
        " (" ++ saReason aggressive ++ ")"]
     else []) ++
    (if arbActionName arbitrage != "hold" then
      ["套利仓: " ++ arbActionName arbitrage ++ " " ++ arbSummaryCode arbitrage ++
        " (" ++ arbReason arbitrage ++ ")"]
     else [])
  if lines.isEmpty then "所有仓位维持不变，无操作建议"
  else String.intercalate "\n" lines

/-- The quote fetch the applier performs to record a fill price: the last
close of the series, raising IndexError on an empty series. -/
def lastCloseOf (f : Fetcher) (code : String) : Except String ℚ := do
  let q ← f.getEtfQuote code
  match fromEnd q 0 with
  | some latest => pure latest.close
  | none => throw "list index out of range"

/-- The position snapshot a buy or switch writes: the candidate fields
spread together with the entry bookkeeping fields. -/
def positionFromCandidate (c : Candidate) (posFrac buyPrice : ℚ) (buyDate : ℤ) :
    Position :=
  { code := c.code, volume := c.volume, positionFrac := posFrac,
    buyPrice := buyPrice, buyDate := buyDate, lastAddDate := none }

/-- The stable sleeve section of _update_positions: the new stable
position snapshot and the trade records appended, in order. -/
def applyStableAction (f : Fetcher) (today : ℤ) (month : Nat)
    (positions : Positions) (stableAction : SADecision) :
    Except String (Option Position × List TradeRecord) :=
  match stableAction with
  | .buy etf reason amount posFrac => do
    let price ← lastCloseOf f etf.code
    pure (some (positionFromCandidate etf posFrac price today),
      [{ type := "buy", position := .stable, etfCode := etf.code,
         amount := amount, reason := reason, month := month }])
  | .sell etf reason _ =>
    pure (none,
      [{ type := "sell", position := .stable, etfCode := etf.code,
         amount := etf.positionFrac * 12000 * 1, reason := reason, month := month }])
  | .sellPart etf reason _ remainingFrac =>
    (match positions.stable with
     | some p =>
       pure (some { p with positionFrac := remainingFrac },
         [{ type := "partial_sell", position := .stable, etfCode := etf.code,
            amount := etf.positionFrac * 12000 * 0.5, reason := reason, month := month }])
     | none => throw "NoneType object does not support item assignment")
  | .switch sellEtf buyEtf reason amount => do
    let price ← lastCloseOf f buyEtf.code
    pure (some (positionFromCandidate buyEtf 0.3 price today),
      [{ type := "sell", position := .stable, etfCode := sellEtf.code,
         amount := sellEtf.positionFrac * 12000, reason := reason, month := month },
       { type := "buy", position := .stable, etfCode := buyEtf.code,
         amount := amount, reason := reason, month := month }])
  | .add etf reason amount newFrac lastAddDate =>
    (match positions.stable with
     | some p =>
       pure (some { p with positionFrac := newFrac, lastAddDate := some lastAddDate },
         [{ type := "add", position := .stable, etfCode := etf.code,
            amount := amount, reason := reason, month := month }])
     | none => throw "NoneType object does not support item assignment")
  | .hold _ _ => pure (positions.stable, [])

/-- The aggressive sleeve section of _update_positions.  The source has no
partial_sell branch for this sleeve, so such an action changes nothing. -/
def applyAggressiveAction (f : Fetcher) (today : ℤ) (month : Nat)
    (positions : Positions) (aggressiveAction : SADecision) :
    Except String (Option Position × List TradeRecord) :=
  match aggressiveAction with
  | .buy etf reason amount posFrac => do
    let price ← lastCloseOf f etf.code
    pure (some (positionFromCandidate etf posFrac price today),
      [{ type := "buy", position := .aggressive, etfCode := etf.code,
         amount := amount, reason := reason, month := month }])
  | .sell etf reason _ =>
    pure (none,
      [{ type := "sell", position := .aggressive, etfCode := etf.code,
         amount := etf.positionFrac * 8000, reason := reason, month := month }])
  | .switch sellEtf buyEtf reason amount => do
    let price ← lastCloseOf f buyEtf.code
    pure (some (positionFromCandidate buyEtf 0.2 price today),
      [{ type := "sell", position := .aggressive, etfCode := sellEtf.code,
         amount := sellEtf.positionFrac * 8000, reason := reason, month := month },
       { type := "buy", position := .aggressive, etfCode := buyEtf.code,
         amount := amount, reason := reason, month := month }])
  | .add etf reason amount newFrac lastAddDate =>
    (match positions.aggressive with
     | some p =>
       pure (some { p with positionFrac := newFrac, lastAddDate := some lastAddDate },
         [{ type := "add", position := .aggressive, etfCode := etf.code,
            amount := amount, reason := reason, month := month }])
     | none => throw "NoneType object does not support item assignment")
  | .sellPart _ _ _ _ => pure (positions.aggressive, [])
  | .hold _ _ => pure (positions.aggressive, [])

/-- The arbitrage sleeve section of _update_positions: only actions buy,
sell and close are handled; pair_trade and hold change nothing. -/
def applyArbitrageAction (month : Nat) (positions : Positions)
    (arbitrageAction : ArbDecision) :
    Except String (Option ArbPosition × List TradeRecord) :=
  match arbitrageAction with
  | .openTrade action etf _ amount expectedReturn reason openDate openPrice =>
    if action == "buy" || action == "sell" then
      pure (some { code := etf.code, etf := etf, direction := action,
                   openPrice := openPrice, openDate := openDate,
                   expectedReturn := expectedReturn },
        [{ type := action, position := .arbitrage, etfCode := etf.code,
           amount := amount, reason := reason, month := month }])
    else
      pure (positions.arbitrage, [])
  | .close etf reason =>
    pure (none,
      [{ type := "close", position := .arbitrage, etfCode := etf.code,
         amount := 2000, reason := reason, month := month }])
  | .pairTrade _ _ _ _ _ _ _ => pure (positions.arbitrage, [])
  | .hold _ _ => pure (positions.arbitrage, [])

/-- _update_positions: the three sleeve sections in source order, yielding
the saved position map and the appended trade records. -/
def updatePositionsBody (f : Fetcher) (today : ℤ) (month : Nat)
    (positions : Positions) (stableAction aggressiveAction : SADecision)
    (arbitrageAction : ArbDecision) :
    Except String (Positions × List TradeRecord) := do
  let (stablePos, stableRecs) ← applyStableAction f today month positions stableAction
  let (aggrPos, aggrRecs) ← applyAggressiveAction f today month positions aggressiveAction
  let (arbPos, arbRecs) ← applyArbitrageAction month positions arbitrageAction
  pure ({ stable := stablePos, aggressive := aggrPos, arbitrage := arbPos },
    stableRecs ++ (aggrRecs ++ arbRecs))

/-- The per-cycle result dict of execute_strategy. -/
structure StrategyResult where
  marketEnvironment : String
  stable : SADecision
  aggressive : SADecision
  arbitrage : ArbDecision
  summary : String
deriving Repr, DecidableEq

/-- execute_strategy: classify the market environment, evaluate the three
sleeves, build the result, apply the decisions and persist positions and
trade history. -/
def executeStrategy (f : Fetcher) (getIndexQuote : String → Except String (List Bar))
    (today : ℤ) (month : Nat) (positions : Positions)
    (tradeHistory : List TradeRecord) :
    Except String (StrategyResult × Positions × List TradeRecord) := do
  let marketEnv := checkMarketEnvironment getIndexQuote
  let stableAction := evaluateStablePosition f today month positions tradeHistory
  let aggressiveAction := evaluateAggressivePosition f today month positions tradeHistory
  let arbitrageAction ← evaluateArbitragePosition f today positions
  let result : StrategyResult :=
    { marketEnvironment := marketEnv, stable := stableAction,
      aggressive := aggressiveAction, arbitrage := arbitrageAction,
      summary := generateSummary stableAction aggressiveAction arbitrageAction }
  let (positions2, newRecs) ←
    updatePositionsBody f today month positions stableAction aggressiveAction arbitrageAction
  pure (result, positions2, tradeHistory ++ newRecs)

/-
Specification-side condition readings.  The following definitions follow
the wording of the specification claims rather than the source; the
theorems below compare the source translations against them.
-/

/-- Spec reading of the buy price condition: latest close and previous
close both above ma20. -/
def buyPriceCondB (q : List Bar) : Bool :=
  match fromEnd q 0, fromEnd q 1 with
  | some latest, some prevDay =>
    decide (buyMa20of q < latest.close) && decide (buyMa20of q < prevDay.close)
  | _, _ => false

/-- Spec reading of the buy trend condition: current ma20 greater than the
ma20 carried by the bar three positions before the latest. -/
def buyTrendCondB (q : List Bar) : Bool :=
  match fromEnd q 2 with
  | some bar3 =>
    match bar3.ma20 with
    | some m3 => decide (m3 < buyMa20of q)
    | none => false
  | none => false

/-- Spec reading of the buy volume condition: latest volume at least 1.2
times volume_ma5. -/
def buyVolumeCondB (q : List Bar) : Bool :=
  match fromEnd q 0 with
  | some latest => decide (buyVolumeMa5of q * 1.2 ≤ latest.volume)
  | none => false

/-- Spec reading of the sleeve gate: stable needs valuation percentile
strictly below 60, aggressive needs sentiment strictly above 0. -/
def sleeveGateB (sleeve : Sleeve) (pePercentile industrySentiment : ℚ) : Bool :=
  match sleeve with
  | .stable => !(decide ((60 : ℚ) ≤ pePercentile))
  | .aggressive => !(decide (industrySentiment ≤ 0))
  | .arbitrage => true

/-- The reason string of a failing sleeve gate. -/
def sleeveGateFailReason (sleeve : Sleeve) (pePercentile industrySentiment : ℚ) : String :=
  match sleeve with
  | .stable => "稳健仓买入条件不满足：PE百分位" ++ toString pePercentile ++ "%≥60%"
  | .aggressive => "激进仓买入条件不满足：行业景气度" ++ toString industrySentiment ++ "≤中性"
  | .arbitrage => ""

/-
Supporting concrete data for witnesses and counterexamples.
-/

/-- A fetcher answering every call with the given constants, used to
instantiate theorems with hypotheses at concrete inputs. -/
def constFetcher (q : List Bar) (pe : Option ℚ) (senti : ℚ) (rt : Option RtQuote) : Fetcher :=
  { getEtfQuote := fun _ => .ok q
    getEtfValuation := fun _ => .ok pe
    getIndustrySentiment := fun _ => .ok senti
    getEtfRealTimeData := fun _ => .ok rt
    getEtfProblematicStocks := fun _ => .ok []
    getIndustryPolicies := fun _ => .ok []
    getEtfEvents := fun _ => .ok []
    getEtfPool := .ok []
    getRelatedEtfs := fun _ => .ok []
    getStableCandidates := []
    getAggressiveCandidates := [] }

/-- A featureless bar used to pad concrete series. -/
def flatBar : Bar := { close := 100, high := 100, volume := 100, ma20 := none, volumeMa5 := none }

/-- The bar three positions before the latest in the concrete series wq. -/
def wBar3 : Bar := { close := 100, high := 100, volume := 100, ma20 := some 80, volumeMa5 := none }

/-- The latest bar of the concrete series wq. -/
def wLatest : Bar := { close := 100, high := 120, volume := 120, ma20 := some 90, volumeMa5 := some 100 }

/-- A concrete 20 bar series on which every buy condition passes. -/
def wq : List Bar := List.replicate 17 flatBar ++ [wBar3, flatBar, wLatest]

/-- Spec reading of the sell decision: return ratio against the sleeve
thresholds in order take-profit, stop-loss, technical, first match wins. -/
def specSellKind (q : List Bar) (buyPrice : ℚ) (sleeve : Sleeve) : Option SellKind :=
  match fromEnd q 0 with
  | none => none
  | some latest =>
    let returnFrac := (latest.close - buyPrice) / buyPrice
    let takeProfit : ℚ :=
      match sleeve with
      | .stable => 0.15
      | .aggressive => 0.25
      | .arbitrage => 0.05
    let stopLine : ℚ :=
      match sleeve with
      | .stable => -0.05
      | .aggressive => -0.08
      | .arbitrage => -0.02
    if takeProfit ≤ returnFrac then some .profitTake
    else if returnFrac ≤ stopLine then some .stopLoss
    else
      match fromEnd q 1, fromEnd q 2 with
      | some prevDay, some bar3 =>
        match bar3.ma20 with
        | some m3 =>
          if (decide (latest.close < ma20MeanOf q) && decide (prevDay.close < ma20MeanOf q)) &&
              decide (ma20MeanOf q < m3) then
            some .technical
          else none
        | none => none
      | _, _ => none

/-- The single bar of the C2 witness series. -/
def sBar84 : Bar := { close := 84, high := 84, volume := 100, ma20 := none, volumeMa5 := none }

/-- A concrete 20 bar series whose quote[-3] bar has no ma20 field. -/
def wq10 : List Bar := List.replicate 19 flatBar ++ [wLatest]

/-- The direction of a premium opportunity, when one fired. -/
def premiumDirection : Option ArbOpportunity → Option String
  | some (.premium _ _ _ d _) => some d
  | _ => none

/-- The candidate used by the premium detector examples. -/
def candC6 : Candidate := { code := "510050", volume := 0 }

/-- A realtime quote at the premium boundary: rate exactly -0.01. -/
def rtBoundary : RtQuote := { price := some 9.9, iopv := some 10, volume := some 6000000 }

/-- The realtime quote of the C6 example: price 10.2, iopv 10.0, volume
6,000,000. -/
def rtExample : RtQuote := { price := some 10.2, iopv := some 10, volume := some 6000000 }

/-- The premium hit of the C5 example, expected_return 0.02. -/
def premC5 : ArbOpportunity := .premium candC6 0.02 0.02 "sell" "p"

/-- The event hit of the C5 example, expected_return 0.015. -/
def evC5 : ArbOpportunity := .event candC6 { date := 0, type := "分红" } 0.015 "e"

/-- The cross market hit of the C5 example, expected_return 0.001. -/
def crossC5 : ArbOpportunity := .crossMarket candC6 candC6 0.001 0.001 "c"

/-- The gathered detector hits of the C5 example, with their priorities. -/
def exampleHitsC5 : List (ArbOpportunity × Nat) := [(premC5, 3), (evC5, 2), (crossC5, 1)]

/-- A second premium hit, expected_return 0.019, ranked below premC5. -/
def prem019 : ArbOpportunity := .premium candC6 0.019 0.019 "sell" "p2"

/-- A cross market hit above the floor, expected_return 0.004. -/
def cross004 : ArbOpportunity := .crossMarket candC6 candC6 0.004 0.004 "c4"

/-- Detector hits of three distinct kinds, all above the 0.003 floor, with
two hits of the premium kind. -/
def exampleHits4 : List (ArbOpportunity × Nat) :=
  [(premC5, 3), (prem019, 3), (evC5, 2), (cross004, 1)]

/-- The descending ranking order on (hit, priority) pairs: higher priority
first, equal priorities ordered by expected_return descending. -/
def oppKeyGE (a b : ArbOpportunity × Nat) : Prop :=
  b.2 < a.2 ∨ (a.2 = b.2 ∧ b.1.expectedReturn ≤ a.1.expectedReturn)

/-- Everything in a cycle result except the market environment label. -/
def stripEnvironment (r : StrategyResult × Positions × List TradeRecord) :
    SADecision × SADecision × ArbDecision × String × Positions × List TradeRecord :=
  (r.1.stable, r.1.aggressive, r.1.arbitrage, r.1.summary, r.2.1, r.2.2)

/-- A fetcher whose quote and realtime calls fail. -/
def fErr : Fetcher :=
  { constFetcher [] none 0 none with
    getEtfQuote := fun _ => .error "超时"
    getEtfRealTimeData := fun _ => .error "连接超时" }

/-- A fetcher answering every call except the realtime one, which fails. -/
def fC8 : Fetcher :=
  { constFetcher [] none 0 none with
    getEtfRealTimeData := fun _ => .error "连接超时" }

/-- An open arbitrage position younger than the 3 day forced-close age. -/
def arbPosC8 : ArbPosition :=
  { code := "511990", etf := { code := "511990", volume := 0 }, direction := "buy",
    openPrice := 1, openDate := 0, expectedReturn := 0.01 }

/-- A position map holding only the open arbitrage position. -/
def positionsC8 : Positions :=
  { stable := none, aggressive := none, arbitrage := some arbPosC8 }

/-- The outgoing holding of the C7 witness. -/
def posC7 : Position :=
  { code := "159915", volume := 5, positionFrac := 0.3, buyPrice := 100,
    buyDate := 0, lastAddDate := none }

/-- Whether a stable / aggressive decision is a switch. -/
def SADecision.isSwitchB : SADecision → Bool
  | .switch _ _ _ _ => true
  | _ => false

/-- A persisted switch record in month 1. -/
def switchRec : TradeRecord :=
  { type := "switch", position := .stable, etfCode := "510300", amount := 0,
    reason := "", month := 1 }

/-- The position map of the C4 witness: a stable holding at fraction 0.3. -/
def positionsW4 : Positions :=
  { stable := some posC7, aggressive := none, arbitrage := none }

/-
Helper lemmas and claim theorems.
-/

lemma fromEnd_isSome (q : List Bar) (k : Nat) (h : k < q.length) :
    ∃ b, fromEnd q k = some b :=
  ⟨_, List.getElem?_eq_getElem (by simpa using h)⟩

/-- Closed form of the buy check on a series of at least 20 bars when all
collaborator calls succeed. -/
lemma checkBasicBuy_eval (f : Fetcher) (etfCode : String) (sleeve : Sleeve)
    (q : List Bar) (pe : Option ℚ) (senti : ℚ) (latest prevDay : Bar)
    (hq : f.getEtfQuote etfCode = Except.ok q)
    (hv : f.getEtfValuation etfCode = Except.ok pe)
    (hs : f.getIndustrySentiment etfCode = Except.ok senti)
    (h20 : 20 ≤ q.length)
    (h0 : fromEnd q 0 = some latest) (h1 : fromEnd q 1 = some prevDay) :
    checkBasicBuyConditions f etfCode sleeve =
      (if !((decide (buyMa20of q < latest.close) && decide (buyMa20of q < prevDay.close)) &&
            buyMaTrendUp q (buyMa20of q)) then
        (false, "基础买入条件不满足：未形成有效均线突破趋势")
      else if !(decide (buyVolumeMa5of q * 1.2 ≤ latest.volume)) then
        (false, "基础买入条件不满足：量能未有效放大")
      else
        match sleeve with
        | .stable =>
          if 60 ≤ pe.getD 100 then
            (false, "稳健仓买入条件不满足：PE百分位" ++ toString (pe.getD 100) ++ "%≥60%")
          else (true, "所有基础买入条件均满足")
        | .aggressive =>
          if senti ≤ 0 then
            (false, "激进仓买入条件不满足：行业景气度" ++ toString senti ++ "≤中性")
          else (true, "所有基础买入条件均满足")
        | .arbitrage => (true, "所有基础买入条件均满足")) := by
  have hlt : ¬ (q.length < 20) := by omega
  have hbody : checkBasicBuyConditionsBody f etfCode sleeve =
      Except.ok (if !((decide (buyMa20of q < latest.close) && decide (buyMa20of q < prevDay.close)) &&
            buyMaTrendUp q (buyMa20of q)) then
        (false, "基础买入条件不满足：未形成有效均线突破趋势")
      else if !(decide (buyVolumeMa5of q * 1.2 ≤ latest.volume)) then
        (false, "基础买入条件不满足：量能未有效放大")
      else
        match sleeve with
        | .stable =>
          if 60 ≤ pe.getD 100 then
            (false, "稳健仓买入条件不满足：PE百分位" ++ toString (pe.getD 100) ++ "%≥60%")
          else (true, "所有基础买入条件均满足")
        | .aggressive =>
          if senti ≤ 0 then
            (false, "激进仓买入条件不满足：行业景气度" ++ toString senti ++ "≤中性")
          else (true, "所有基础买入条件均满足")
        | .arbitrage => (true, "所有基础买入条件均满足")) := by
    simp only [checkBasicBuyConditionsBody, hq, hv, hs, Bind.bind, Except.bind,
      Pure.pure, Except.pure, hlt, if_false, h0, h1]
    cases sleeve <;> (repeat' split) <;> rfl
  simp [checkBasicBuyConditions, hbody]

/-- C1: the buy check returns true exactly when the five conditions hold
(at least 20 bars; both latest closes above ma20; ma20 rising versus three
bars prior; volume at least 1.2 times the baseline; the sleeve gate), it
returns false with the insufficiency reason on a short series, and the
reason string is the one attached to the first failing condition in the
source order. -/
theorem claim_C1 (f : Fetcher) (etfCode : String) (sleeve : Sleeve) (q : List Bar)
    (pe senti : ℚ)
    (hq : f.getEtfQuote etfCode = Except.ok q)
    (hv : f.getEtfValuation etfCode = Except.ok (some pe))
    (hs : f.getIndustrySentiment etfCode = Except.ok senti) :
    (q.length < 20 →
      checkBasicBuyConditions f etfCode sleeve =
        (false, "基础买入条件不满足：行情数据不足20天")) ∧
    (∀ bar3 m3, 20 ≤ q.length → fromEnd q 2 = some bar3 → bar3.ma20 = some m3 →
      ((checkBasicBuyConditions f etfCode sleeve).1 =
        (buyPriceCondB q && buyTrendCondB q && buyVolumeCondB q &&
          sleeveGateB sleeve pe senti)) ∧
      ((buyPriceCondB q && buyTrendCondB q) = false →
        (checkBasicBuyConditions f etfCode sleeve).2 =
          "基础买入条件不满足：未形成有效均线突破趋势") ∧
      ((buyPriceCondB q && buyTrendCondB q) = true → buyVolumeCondB q = false →
        (checkBasicBuyConditions f etfCode sleeve).2 =
          "基础买入条件不满足：量能未有效放大") ∧
      ((buyPriceCondB q && buyTrendCondB q) = true → buyVolumeCondB q = true →
        sleeveGateB sleeve pe senti = false →
        (checkBasicBuyConditions f etfCode sleeve).2 =
          sleeveGateFailReason sleeve pe senti) ∧
      ((buyPriceCondB q && buyTrendCondB q) = true → buyVolumeCondB q = true →
        sleeveGateB sleeve pe senti = true →
        checkBasicBuyConditions f etfCode sleeve = (true, "所有基础买入条件均满足"))) := by
  constructor
  · intro hlt
    have hbody : checkBasicBuyConditionsBody f etfCode sleeve =
        Except.ok (false, "基础买入条件不满足：行情数据不足20天") := by
      simp [checkBasicBuyConditionsBody, hq, Bind.bind, Except.bind, Pure.pure,
        Except.pure, hlt]
    simp [checkBasicBuyConditions, hbody]
  · intro bar3 m3 h20 h3 hm3
    obtain ⟨latest, h0⟩ := fromEnd_isSome q 0 (by omega)
    obtain ⟨prevDay, h1⟩ := fromEnd_isSome q 1 (by omega)
    rw [checkBasicBuy_eval f etfCode sleeve q (some pe) senti latest prevDay hq hv hs h20 h0 h1]
    have eqP : buyPriceCondB q =
        (decide (buyMa20of q < latest.close) && decide (buyMa20of q < prevDay.close)) := by
      simp [buyPriceCondB, h0, h1]
    have eqT : buyTrendCondB q = buyMaTrendUp q (buyMa20of q) := by
      simp [buyTrendCondB, buyMaTrendUp, h3, hm3]
    have eqV : buyVolumeCondB q = decide (buyVolumeMa5of q * 1.2 ≤ latest.volume) := by
      simp [buyVolumeCondB, h0]
    rw [← eqP, ← eqT, ← eqV]
    cases hP : buyPriceCondB q <;> cases hT : buyTrendCondB q <;>
      cases hV : buyVolumeCondB q <;> cases hG : sleeveGateB sleeve pe senti <;>
      cases sleeve <;>
      simp_all [sleeveGateB, sleeveGateFailReason] <;>
      rw [if_neg (not_le.mpr hG)]

/-- Witness for C1 at a concrete passing series and stable sleeve inputs. -/
theorem claim_C1_witness :
    (20 ≤ wq.length ∧ fromEnd wq 2 = some wBar3 ∧ wBar3.ma20 = some (80 : ℚ)) ∧
    checkBasicBuyConditions (constFetcher wq (some 40) 5 none) "510300" Sleeve.stable =
      (true, "所有基础买入条件均满足") := by
  refine ⟨⟨by decide, by decide, by decide⟩, ?_⟩
  have h := claim_C1 (constFetcher wq (some 40) 5 none) "510300" Sleeve.stable wq 40 5
    rfl rfl rfl
  have hvol : buyVolumeCondB wq = true := by
    have h0 : fromEnd wq 0 = some wLatest := by decide
    have h5 : buyVolumeMa5of wq = 100 := by decide
    simp [buyVolumeCondB, h0, h5, wLatest]
    norm_num
  exact (h.2 wBar3 80 (by decide) (by decide) (by decide)).2.2.2.2
    (by decide) hvol (by decide)

/-- Closed form of the sell check on a nonempty series with a nonzero cost
basis when the quote call succeeds. -/
lemma checkBasicSell_eval (f : Fetcher) (etfCode : String) (buyPrice : ℚ)
    (sleeve : Sleeve) (q : List Bar) (latest : Bar)
    (hq : f.getEtfQuote etfCode = Except.ok q)
    (h0 : fromEnd q 0 = some latest) (hbp : buyPrice ≠ 0) :
    checkBasicSellConditions f etfCode buyPrice sleeve =
      (if sellTargetProfit sleeve ≤ (latest.close - buyPrice) / buyPrice then
        (true, "达到止盈线" ++ toString (sellTargetProfit sleeve * 100) ++ "%（当前收益"
          ++ toString ((latest.close - buyPrice) / buyPrice * 100) ++ "%）", some .profitTake)
      else if (latest.close - buyPrice) / buyPrice ≤ sellStopLoss sleeve then
        (true, "达到止损线" ++ toString (sellStopLoss sleeve * 100) ++ "%（当前亏损"
          ++ toString ((latest.close - buyPrice) / buyPrice * 100) ++ "%）", some .stopLoss)
      else
        match fromEnd q 1, fromEnd q 2 with
        | some prevDay, some bar3 =>
          if (decide (latest.close < ma20MeanOf q) && decide (prevDay.close < ma20MeanOf q)) &&
              sellMaTrendDown bar3 (ma20MeanOf q) then
            (true, "价格连续2日跌破20日均线且均线走弱", some .technical)
          else
            (false, "未满足任何卖出条件", none)
        | some _, none => (false, "检查基础卖出条件出错：list index out of range", none)
        | none, _ => (false, "未满足任何卖出条件", none)) := by
  have hlen : 1 ≤ q.length := by
    by_contra hc
    have : q = [] := by
      cases q with
      | nil => rfl
      | cons a l => simp at hc
    rw [this] at h0
    simp [fromEnd] at h0
  by_cases h2 : 2 ≤ q.length
  · obtain ⟨prevDay, h1⟩ := fromEnd_isSome q 1 (by omega)
    by_cases h3e : 3 ≤ q.length
    · obtain ⟨bar3, h3⟩ := fromEnd_isSome q 2 (by omega)
      have hbody : checkBasicSellConditionsBody f etfCode buyPrice sleeve =
          Except.ok (if sellTargetProfit sleeve ≤ (latest.close - buyPrice) / buyPrice then
            (true, "达到止盈线" ++ toString (sellTargetProfit sleeve * 100) ++ "%（当前收益"
              ++ toString ((latest.close - buyPrice) / buyPrice * 100) ++ "%）", some .profitTake)
          else if (latest.close - buyPrice) / buyPrice ≤ sellStopLoss sleeve then
            (true, "达到止损线" ++ toString (sellStopLoss sleeve * 100) ++ "%（当前亏损"
              ++ toString ((latest.close - buyPrice) / buyPrice * 100) ++ "%）", some .stopLoss)
          else
            if (decide (latest.close < ma20MeanOf q) && decide (prevDay.close < ma20MeanOf q)) &&
                sellMaTrendDown bar3 (ma20MeanOf q) then
              (true, "价格连续2日跌破20日均线且均线走弱", some .technical)
            else
              (false, "未满足任何卖出条件", none)) := by
        simp only [checkBasicSellConditionsBody, hq, Bind.bind, Except.bind,
          Pure.pure, Except.pure, h0, h1, h3, hbp, if_false, h2, if_true]
        (repeat' split) <;> simp_all
      simp only [checkBasicSellConditions, hbody, h1, h3]
    · have h3 : fromEnd q 2 = none := by
        rw [fromEnd, List.getElem?_eq_none]
        simp
        omega
      have hbody : checkBasicSellConditionsBody f etfCode buyPrice sleeve =
          if sellTargetProfit sleeve ≤ (latest.close - buyPrice) / buyPrice then
            Except.ok (true, "达到止盈线" ++ toString (sellTargetProfit sleeve * 100) ++ "%（当前收益"
              ++ toString ((latest.close - buyPrice) / buyPrice * 100) ++ "%）", some .profitTake)
          else if (latest.close - buyPrice) / buyPrice ≤ sellStopLoss sleeve then
            Except.ok (true, "达到止损线" ++ toString (sellStopLoss sleeve * 100) ++ "%（当前亏损"
              ++ toString ((latest.close - buyPrice) / buyPrice * 100) ++ "%）", some .stopLoss)
          else
            Except.error "list index out of range" := by
        simp only [checkBasicSellConditionsBody, hq, Bind.bind, Except.bind,
          Pure.pure, Except.pure, h0, h1, h3, hbp, if_false, h2, if_true]
        (repeat' split) <;> simp_all [throw, throwThe, MonadExceptOf.throw]
      by_cases hTP : sellTargetProfit sleeve ≤ (latest.close - buyPrice) / buyPrice
      · simp only [checkBasicSellConditions, hbody, if_pos hTP, h1, h3]
      · by_cases hSL : (latest.close - buyPrice) / buyPrice ≤ sellStopLoss sleeve
        · simp only [checkBasicSellConditions, hbody, if_neg hTP, if_pos hSL, h1, h3]
        · simp only [checkBasicSellConditions, hbody, if_neg hTP, if_neg hSL, h1, h3]
          rfl
  · have h1 : fromEnd q 1 = none := by
      rw [fromEnd, List.getElem?_eq_none]
      simp
      omega
    have hbody : checkBasicSellConditionsBody f etfCode buyPrice sleeve =
        Except.ok (if sellTargetProfit sleeve ≤ (latest.close - buyPrice) / buyPrice then
          (true, "达到止盈线" ++ toString (sellTargetProfit sleeve * 100) ++ "%（当前收益"
            ++ toString ((latest.close - buyPrice) / buyPrice * 100) ++ "%）", some .profitTake)
        else if (latest.close - buyPrice) / buyPrice ≤ sellStopLoss sleeve then
          (true, "达到止损线" ++ toString (sellStopLoss sleeve * 100) ++ "%（当前亏损"
            ++ toString ((latest.close - buyPrice) / buyPrice * 100) ++ "%）", some .stopLoss)
        else
          (false, "未满足任何卖出条件", none)) := by
      have h2f : ¬ (2 ≤ q.length) := h2
      simp only [checkBasicSellConditionsBody, hq, Bind.bind, Except.bind,
        Pure.pure, Except.pure, h0, hbp, if_false, h2f]
      (repeat' split) <;> simp_all
    simp only [checkBasicSellConditions, hbody, h1]

/-- The sell check with a zero cost basis raises ZeroDivisionError, which
the wrapper downgrades. -/
lemma checkBasicSell_zero (f : Fetcher) (etfCode : String) (sleeve : Sleeve)
    (q : List Bar) (latest : Bar)
    (hq : f.getEtfQuote etfCode = Except.ok q) (h0 : fromEnd q 0 = some latest) :
    checkBasicSellConditions f etfCode 0 sleeve =
      (false, "检查基础卖出条件出错：float division by zero", none) := by
  have hbody : checkBasicSellConditionsBody f etfCode 0 sleeve =
      Except.error "float division by zero" := by
    simp [checkBasicSellConditionsBody, hq, Bind.bind, Except.bind, Pure.pure,
      Except.pure, h0, throw, throwThe, MonadExceptOf.throw]
  simp [checkBasicSellConditions, hbody]

/-- C2: on a held position with positive cost basis and a nonempty series
the sell check decides exactly as the spec orders it (take-profit with
thresholds 0.15 / 0.25 / 0.05, then stop-loss with thresholds
-0.05 / -0.08 / -0.02, then the two-close technical exit, else no sell),
and the boolean result is true exactly when some kind fired. -/
theorem claim_C2 (f : Fetcher) (etfCode : String) (sleeve : Sleeve) (q : List Bar)
    (buyPrice : ℚ) (latest : Bar)
    (hq : f.getEtfQuote etfCode = Except.ok q)
    (h0 : fromEnd q 0 = some latest) (hbp : 0 < buyPrice) :
    ((checkBasicSellConditions f etfCode buyPrice sleeve).2.2 =
      specSellKind q buyPrice sleeve) ∧
    ((checkBasicSellConditions f etfCode buyPrice sleeve).1 =
      (specSellKind q buyPrice sleeve).isSome) := by
  rw [checkBasicSell_eval f etfCode buyPrice sleeve q latest hq h0 (by positivity)]
  simp only [specSellKind.eq_def, h0]
  rcases hf1 : fromEnd q 1 with _ | prevDay <;> rcases hf2 : fromEnd q 2 with _ | bar3 <;>
    simp only [hf1, hf2] <;>
    cases sleeve <;>
    simp only [sellTargetProfit, sellStopLoss] <;>
    first
    | (rcases hm : bar3.ma20 with _ | m3 <;>
        simp only [sellMaTrendDown, hm] <;>
        (repeat' split) <;> simp_all)
    | ((repeat' split) <;> simp_all)

/-- Witness for C2: stable sleeve, cost basis 100, latest close 84, the
return of -16 percent triggers the stop-loss kind. -/
theorem claim_C2_witness :
    ((checkBasicSellConditions (constFetcher [sBar84] none 0 none)
        "510300" 100 Sleeve.stable).2.2 = some SellKind.stopLoss) ∧
    ((checkBasicSellConditions (constFetcher [sBar84] none 0 none)
        "510300" 100 Sleeve.stable).1 = true) := by
  have h := claim_C2 (constFetcher [sBar84] none 0 none) "510300" Sleeve.stable
    [sBar84] 100 sBar84 rfl (by decide) (by norm_num)
  have hspec : specSellKind [sBar84] 100 Sleeve.stable = some SellKind.stopLoss := by
    simp only [specSellKind.eq_def]
    norm_num [fromEnd, sBar84]
  refine ⟨h.1.trans hspec, ?_⟩
  rw [h.2, hspec]
  rfl

/-- C10: when the bar three positions before the latest carries no ma20
field, the buy check treats its trend condition as satisfied (so only the
price, volume and gate conditions decide the outcome on a 20 bar series),
while the sell check treats its trend condition as unsatisfied, so the
technical exit kind can never fire there. -/
theorem claim_C10 (f : Fetcher) (etfCode : String) (sleeve : Sleeve) (q : List Bar)
    (pe : Option ℚ) (senti buyPrice : ℚ) (bar3 : Bar)
    (hq : f.getEtfQuote etfCode = Except.ok q)
    (hv : f.getEtfValuation etfCode = Except.ok pe)
    (hs : f.getIndustrySentiment etfCode = Except.ok senti)
    (h3 : fromEnd q 2 = some bar3) (hma : bar3.ma20 = none) :
    (buyMaTrendUp q (buyMa20of q) = true) ∧
    (20 ≤ q.length →
      (checkBasicBuyConditions f etfCode sleeve).1 =
        (buyPriceCondB q && buyVolumeCondB q && sleeveGateB sleeve (pe.getD 100) senti)) ∧
    ((checkBasicSellConditions f etfCode buyPrice sleeve).2.2 ≠ some SellKind.technical) := by
  have htrend : buyMaTrendUp q (buyMa20of q) = true := by
    simp [buyMaTrendUp, h3, hma]
  have hlen3 : 3 ≤ q.length := by
    by_contra hc
    have : fromEnd q 2 = none := by
      rw [fromEnd, List.getElem?_eq_none]
      simp
      omega
    rw [this] at h3
    exact Option.noConfusion h3
  refine ⟨htrend, ?_, ?_⟩
  · intro h20
    obtain ⟨latest, h0⟩ := fromEnd_isSome q 0 (by omega)
    obtain ⟨prevDay, h1⟩ := fromEnd_isSome q 1 (by omega)
    rw [checkBasicBuy_eval f etfCode sleeve q pe senti latest prevDay hq hv hs h20 h0 h1]
    have eqP : buyPriceCondB q =
        (decide (buyMa20of q < latest.close) && decide (buyMa20of q < prevDay.close)) := by
      simp [buyPriceCondB, h0, h1]
    have eqV : buyVolumeCondB q = decide (buyVolumeMa5of q * 1.2 ≤ latest.volume) := by
      simp [buyVolumeCondB, h0]
    rw [htrend, ← eqP, ← eqV]
    cases hP : buyPriceCondB q <;> cases hV : buyVolumeCondB q <;>
      cases hG : sleeveGateB sleeve (pe.getD 100) senti <;> cases sleeve <;>
      simp_all [sleeveGateB, sleeveGateFailReason] <;>
      rw [if_neg (not_le.mpr hG)]
  · obtain ⟨latest, h0⟩ := fromEnd_isSome q 0 (by omega)
    obtain ⟨prevDay, h1⟩ := fromEnd_isSome q 1 (by omega)
    by_cases hbp : buyPrice = 0
    · rw [hbp, checkBasicSell_zero f etfCode sleeve q latest hq h0]
      simp
    · rw [checkBasicSell_eval f etfCode buyPrice sleeve q latest hq h0 hbp, h1, h3]
      have hdown : sellMaTrendDown bar3 (ma20MeanOf q) = false := by
        simp [sellMaTrendDown, hma]
      (repeat' split) <;> simp_all

/-- Witness for C10 at a concrete series whose quote[-3] bar lacks ma20. -/
theorem claim_C10_witness :
    (fromEnd wq10 2 = some flatBar ∧ flatBar.ma20 = none ∧ 20 ≤ wq10.length) ∧
    buyMaTrendUp wq10 (buyMa20of wq10) = true ∧
    ((checkBasicSellConditions (constFetcher wq10 none 0 none) "510300" 100 Sleeve.stable).2.2 ≠
      some SellKind.technical) := by
  have h := claim_C10 (constFetcher wq10 none 0 none) "510300" Sleeve.stable wq10
    none 0 100 flatBar rfl rfl rfl (by decide) (by decide)
  exact ⟨⟨by decide, by decide, by decide⟩, h.1, h.2.2⟩

/-- Counterexample to C6 as stated: at price 9.9, iopv 10, volume
6,000,000 the rate (price - iopv) / iopv equals -0.01, so the claim
(direction buy when rate is at most -0.01) demands buy, but the detector
compares strictly and returns sell. -/
theorem claim_C6_counterexample :
    (((9.9 : ℚ) - 10) / 10 ≤ -0.01) ∧
    premiumDirection (checkPremiumArbitrage (constFetcher [] none 0 (some rtBoundary)) candC6) =
      some "sell" := by
  constructor
  · norm_num
  · have hbody : checkPremiumArbitrageBody (constFetcher [] none 0 (some rtBoundary)) candC6 =
        Except.ok (some (.premium candC6 (((9.9 : ℚ) - 10) / 10)
          (|((9.9 : ℚ) - 10) / 10| - 0.001)
          "sell" ("折溢价率" ++ toString (((9.9 : ℚ) - 10) / 10)))) := by
      simp only [checkPremiumArbitrageBody, constFetcher, rtBoundary, Bind.bind,
        Except.bind, Pure.pure, Except.pure]
      norm_num [abs_of_nonneg]
    simp [checkPremiumArbitrage, hbody, premiumDirection]

/-- C6 amended: the detector fires exactly when the absolute rate is at
least 0.01 and volume is at least 5,000,000, with expected_return the
absolute rate less 0.001, and direction buy when the rate is strictly
below -0.01, sell otherwise (the boundary rate -0.01 maps to sell). -/
theorem claim_C6_amended (f : Fetcher) (etf : Candidate) (price iopv vol : ℚ)
    (hrt : f.getEtfRealTimeData etf.code =
      Except.ok (some { price := some price, iopv := some iopv, volume := some vol }))
    (hiopv : iopv ≠ 0) :
    checkPremiumArbitrage f etf =
      (if (0.01 : ℚ) ≤ |(price - iopv) / iopv| ∧ (5000000 : ℚ) ≤ vol then
        some (.premium etf ((price - iopv) / iopv) (|(price - iopv) / iopv| - 0.001)
          (if (price - iopv) / iopv < -0.01 then "buy" else "sell")
          ("折溢价率" ++ toString ((price - iopv) / iopv)))
      else none) := by
  have hbody : checkPremiumArbitrageBody f etf =
      Except.ok (if (0.01 : ℚ) ≤ |(price - iopv) / iopv| ∧ (5000000 : ℚ) ≤ vol then
        some (.premium etf ((price - iopv) / iopv) (|(price - iopv) / iopv| - 0.001)
          (if (price - iopv) / iopv < -0.01 then "buy" else "sell")
          ("折溢价率" ++ toString ((price - iopv) / iopv)))
      else none) := by
    simp only [checkPremiumArbitrageBody, hrt, Bind.bind, Except.bind, Pure.pure,
      Except.pure, hiopv, if_false, Option.getD]
    by_cases hc : (0.01 : ℚ) ≤ |(price - iopv) / iopv| ∧ (5000000 : ℚ) ≤ vol
    · have hpos : (0 : ℚ) < |(price - iopv) / iopv| - 0.001 := by
        have := hc.1
        linarith
      simp [hc.1, hc.2, hpos]
    · rw [if_neg hc]
      rcases not_and_or.mp hc with hc1 | hc2
      · simp [hc1]
      · simp [hc2]
  simp [checkPremiumArbitrage, hbody]

/-- Witness for the amended C6 at the spec example: rate 0.02 fires a sell
opportunity with expected_return 0.019. -/
theorem claim_C6_witness :
    checkPremiumArbitrage (constFetcher [] none 0 (some rtExample)) candC6 =
      some (.premium candC6 (((10.2 : ℚ) - 10) / 10) (|((10.2 : ℚ) - 10) / 10| - 0.001)
        "sell" ("折溢价率" ++ toString (((10.2 : ℚ) - 10) / 10))) ∧
    (((10.2 : ℚ) - 10) / 10 = 1 / 50) ∧
    (|((10.2 : ℚ) - 10) / 10| - 0.001 = 19 / 1000) := by
  have h := claim_C6_amended (constFetcher [] none 0 (some rtExample)) candC6
    10.2 10 6000000 rfl (by norm_num)
  refine ⟨?_, by norm_num, by rw [abs_of_nonneg (by norm_num)]; norm_num⟩
  rw [h, if_pos ⟨by rw [abs_of_nonneg (by norm_num)]; norm_num, by norm_num⟩,
    if_neg (by norm_num)]

/-- Everything the deduplication loop keeps comes from its input list. -/
lemma mem_dedupSeen (o : ArbOpportunity) :
    ∀ (l : List ArbOpportunity) (seen : List String), o ∈ dedupSeen l seen → o ∈ l := by
  intro l
  induction l with
  | nil => intro seen h; simp [dedupSeen] at h
  | cons x xs ih =>
    intro seen h
    rw [dedupSeen] at h
    split at h
    · rcases List.mem_cons.mp h with h1 | h2
      · exact h1 ▸ List.mem_cons_self x xs
      · exact List.mem_cons_of_mem x (ih _ h2)
    · exact List.mem_cons_of_mem x (ih _ h)

/-- Membership in a stable descending insertion. -/
lemma mem_insertByDesc {α : Type} (gtB : α → α → Bool) (x z : α) :
    ∀ l, z ∈ insertByDesc gtB x l ↔ z = x ∨ z ∈ l := by
  intro l
  induction l with
  | nil => simp [insertByDesc]
  | cons y ys ih =>
    rw [insertByDesc]
    split <;> simp only [List.mem_cons, ih] <;> tauto

/-- A stable descending insertion permutes the consed list. -/
lemma insertByDesc_perm {α : Type} (gtB : α → α → Bool) (x : α) :
    ∀ l, (insertByDesc gtB x l).Perm (x :: l) := by
  intro l
  induction l with
  | nil => exact List.Perm.refl _
  | cons y ys ih =>
    rw [insertByDesc]
    split
    · exact (ih.cons y).trans (List.Perm.swap x y ys)
    · exact List.Perm.refl _

/-- The stable descending sort is a permutation of its input. -/
lemma sortByDesc_perm {α : Type} (gtB : α → α → Bool) :
    ∀ l, (sortByDesc gtB l).Perm l := by
  intro l
  induction l with
  | nil => exact List.Perm.refl _
  | cons x xs ih =>
    rw [sortByDesc]
    exact (insertByDesc_perm gtB x (sortByDesc gtB xs)).trans (ih.cons x)

/-- A stable descending insertion preserves pairwise order for any
transitive relation compatible with the boolean comparison. -/
lemma pairwise_insertByDesc {α : Type} (gtB : α → α → Bool) (R : α → α → Prop)
    (htrans : ∀ a b c, R a b → R b c → R a c)
    (hge : ∀ a b, gtB a b = false → R b a)
    (hgt : ∀ a b, gtB a b = true → R a b) (x : α) :
    ∀ l, List.Pairwise R l → List.Pairwise R (insertByDesc gtB x l) := by
  intro l
  induction l with
  | nil =>
    intro _
    simp [insertByDesc]
  | cons y ys ih =>
    intro hp
    rw [List.pairwise_cons] at hp
    obtain ⟨hy, hys⟩ := hp
    rw [insertByDesc]
    split
    · rename_i hgtyx
      rw [List.pairwise_cons]
      constructor
      · intro z hz
        rcases (mem_insertByDesc gtB x z ys).mp hz with rfl | hzys
        · exact hgt _ _ hgtyx
        · exact hy z hzys
      · exact ih hys
    · rename_i hgtyx
      have hfalse : gtB y x = false := by simpa using hgtyx
      rw [List.pairwise_cons]
      constructor
      · intro z hz
        rcases List.mem_cons.mp hz with rfl | hzys
        · exact hge _ _ hfalse
        · exact htrans x y z (hge y x hfalse) (hy z hzys)
      · rw [List.pairwise_cons]
        exact ⟨hy, hys⟩

/-- The stable descending sort is pairwise ordered for any transitive
relation compatible with the boolean comparison. -/
lemma pairwise_sortByDesc {α : Type} (gtB : α → α → Bool) (R : α → α → Prop)
    (htrans : ∀ a b c, R a b → R b c → R a c)
    (hge : ∀ a b, gtB a b = false → R b a)
    (hgt : ∀ a b, gtB a b = true → R a b) :
    ∀ l, List.Pairwise R (sortByDesc gtB l) := by
  intro l
  induction l with
  | nil => simp [sortByDesc]
  | cons x xs ih =>
    rw [sortByDesc]
    exact pairwise_insertByDesc gtB R htrans hge hgt x _ ih

/-- The ranking order is transitive. -/
lemma oppKeyGE_trans : ∀ a b c, oppKeyGE a b → oppKeyGE b c → oppKeyGE a c := by
  intro a b c hab hbc
  rcases hab with h1 | ⟨h1, h2⟩ <;> rcases hbc with h3 | ⟨h3, h4⟩
  · exact Or.inl (h3.trans h1)
  · exact Or.inl (by omega)
  · exact Or.inl (by omega)
  · exact Or.inr ⟨by omega, h4.trans h2⟩

/-- A failed comparison means the right pair ranks at least the left. -/
lemma oppPairGTb_false (a b : ArbOpportunity × Nat) (h : oppPairGTb a b = false) :
    oppKeyGE b a := by
  simp only [oppPairGTb, Bool.or_eq_false_iff, Bool.and_eq_false_iff,
    decide_eq_false_iff_not, beq_iff_eq, beq_eq_false_iff_ne] at h
  rcases Nat.lt_or_ge a.2 b.2 with hlt | hge2
  · exact Or.inl hlt
  · have heq : a.2 = b.2 := le_antisymm (not_lt.mp h.1) hge2
    rcases h.2 with hne | hle
    · exact absurd heq hne
    · exact Or.inr ⟨heq.symm, not_lt.mp hle⟩

/-- A successful comparison means the left pair ranks at least the right. -/
lemma oppPairGTb_true (a b : ArbOpportunity × Nat) (h : oppPairGTb a b = true) :
    oppKeyGE a b := by
  simp only [oppPairGTb, Bool.or_eq_true, Bool.and_eq_true,
    decide_eq_true_eq, beq_iff_eq] at h
  rcases h with h | ⟨h1, h2⟩
  · exact Or.inl h
  · exact Or.inr ⟨h1, le_of_lt h2⟩

/-- The deduplication loop keeps a subsequence of its input. -/
lemma dedupSeen_sublist : ∀ (l : List ArbOpportunity) (seen : List String),
    (dedupSeen l seen).Sublist l := by
  intro l
  induction l with
  | nil => intro seen; simp [dedupSeen]
  | cons o rest ih =>
    intro seen
    rw [dedupSeen]
    split
    · exact (ih _).cons₂ o
    · exact (ih seen).cons o

/-- The combiner output is a subsequence of the ranked hit list, so its
order is the ranked order. -/
lemma combineOpportunities_sublist (l : List (ArbOpportunity × Nat)) :
    (combineOpportunities l).Sublist ((sortByDesc oppPairGTb l).map Prod.fst) := by
  simp only [combineOpportunities]
  refine (List.take_sublist 3 _).trans ((dedupSeen_sublist _ []).trans ?_)
  exact (List.filter_sublist _).map Prod.fst

/-- Once three distinct kinds have been seen, the deduplication loop
keeps at most one opportunity of each kind, all of kinds not yet seen. -/
lemma dedupSeen_nodup_of_three : ∀ (l : List ArbOpportunity) (seen : List String),
    3 ≤ seen.length →
    (((dedupSeen l seen).map ArbOpportunity.kind).Nodup ∧
      ∀ o ∈ dedupSeen l seen, o.kind ∉ seen) := by
  intro l
  induction l with
  | nil =>
    intro seen h3
    refine ⟨List.nodup_nil, ?_⟩
    intro o ho
    simp [dedupSeen] at ho
  | cons o rest ih =>
    intro seen h3
    rw [dedupSeen]
    have hlen : decide (seen.length < 3) = false := by
      simp
      omega
    by_cases hk : seen.contains o.kind = true
    · have hcond : (!(seen.contains o.kind) || decide (seen.length < 3)) = false := by
        rw [hk, hlen]
        rfl
      rw [hcond, if_neg (by simp)]
      exact ih seen h3
    · have hkf : seen.contains o.kind = false := by simpa using hk
      have hcond : (!(seen.contains o.kind) || decide (seen.length < 3)) = true := by
        rw [hkf]
        rfl
      rw [hcond, if_pos rfl, hkf, if_neg (by simp)]
      obtain ⟨nd, hmem⟩ := ih (o.kind :: seen) (by simp; omega)
      constructor
      · rw [List.map_cons, List.nodup_cons]
        refine ⟨?_, nd⟩
        intro hcontra
        obtain ⟨o2, ho2, hko2⟩ := List.mem_map.mp hcontra
        have := hmem o2 ho2
        rw [hko2] at this
        exact this (List.mem_cons_self _ _)
      · intro o2 ho2
        rcases List.mem_cons.mp ho2 with rfl | h2
        · intro hmem2
          have hfc : o2.kind ∉ seen := by simpa using hkf
          exact hfc hmem2
        · intro hin
          exact hmem o2 h2 (List.mem_cons_of_mem _ hin)

/-- Counterexample to C5 as stated: on the hits [premium 0.02, premium
0.019, event 0.015, cross_market 0.004] all four clear the 0.003 floor
and 3 distinct kinds are present, yet the combiner returns two premium
opportunities and drops the cross_market one, so the claimed rule (at
most one of each kind unless fewer than 3 kinds are present) fails. -/
theorem claim_C5_counterexample :
    combineOpportunities exampleHits4 = [premC5, prem019, evC5] ∧
    premC5.kind = "premium" ∧ prem019.kind = "premium" ∧
    cross004.kind = "cross_market" ∧
    ((exampleHits4.map fun p => p.1.kind).dedup.length = 3) ∧
    ((0.003 : ℚ) ≤ premC5.expectedReturn) ∧
    ((0.003 : ℚ) ≤ prem019.expectedReturn) ∧
    ((0.003 : ℚ) ≤ evC5.expectedReturn) ∧
    ((0.003 : ℚ) ≤ cross004.expectedReturn) ∧
    "cross_market" ∉ (combineOpportunities exampleHits4).map ArbOpportunity.kind := by
  have hmain : combineOpportunities exampleHits4 = [premC5, prem019, evC5] := by
    norm_num [combineOpportunities, exampleHits4, sortByDesc, insertByDesc,
      oppPairGTb, dedupSeen, premC5, prem019, evC5, cross004,
      ArbOpportunity.kind, ArbOpportunity.expectedReturn]
  refine ⟨hmain, rfl, rfl, rfl, by decide,
    by norm_num [premC5, ArbOpportunity.expectedReturn],
    by norm_num [prem019, ArbOpportunity.expectedReturn],
    by norm_num [evC5, ArbOpportunity.expectedReturn],
    by norm_num [cross004, ArbOpportunity.expectedReturn], ?_⟩
  rw [hmain]
  decide

/-- C5 amended: the combiner stable-sorts the gathered hits by priority
descending then expected_return descending, drops every hit with
expected_return below 0.003, then walks the ranked list keeping a hit of
an already-kept kind only while fewer than 3 distinct kinds have been
seen among the kept hits so far (once 3 kinds have been seen, at most one
of each further kind survives), and returns at most the first 3 kept hits
in ranked order; on the example hits [0.02 premium, 0.015 event, 0.001
cross_market] it returns exactly [premium, event], and on [0.02 premium,
0.019 premium, 0.015 event, 0.004 cross_market] it returns the two
premium hits and the event hit. -/
theorem claim_C5_amended :
    (∀ l : List (ArbOpportunity × Nat), (sortByDesc oppPairGTb l).Perm l) ∧
    (∀ l : List (ArbOpportunity × Nat),
      List.Pairwise oppKeyGE (sortByDesc oppPairGTb l)) ∧
    (∀ l : List (ArbOpportunity × Nat),
      (combineOpportunities l).Sublist ((sortByDesc oppPairGTb l).map Prod.fst)) ∧
    (∀ l o, o ∈ combineOpportunities l → (0.003 : ℚ) ≤ o.expectedReturn) ∧
    (∀ l, (combineOpportunities l).length ≤ 3) ∧
    (∀ (l : List ArbOpportunity) (seen : List String), 3 ≤ seen.length →
      (((dedupSeen l seen).map ArbOpportunity.kind).Nodup ∧
        ∀ o ∈ dedupSeen l seen, o.kind ∉ seen)) ∧
    combineOpportunities exampleHitsC5 = [premC5, evC5] ∧
    combineOpportunities exampleHits4 = [premC5, prem019, evC5] := by
  refine ⟨sortByDesc_perm oppPairGTb, ?_, combineOpportunities_sublist, ?_, ?_,
    dedupSeen_nodup_of_three, ?_, ?_⟩
  · intro l
    exact pairwise_sortByDesc oppPairGTb oppKeyGE oppKeyGE_trans
      oppPairGTb_false oppPairGTb_true l
  · intro l o h
    simp only [combineOpportunities] at h
    have h1 := List.mem_of_mem_take h
    have h2 := mem_dedupSeen o _ [] h1
    obtain ⟨pair, hpf, hpe⟩ := List.mem_map.mp h2
    have := List.of_mem_filter hpf
    simp at this
    rw [← hpe]
    exact this
  · intro l
    simp only [combineOpportunities, List.length_take]
    exact Nat.min_le_left _ _
  · norm_num [combineOpportunities, exampleHitsC5, sortByDesc, insertByDesc,
      oppPairGTb, dedupSeen, premC5, evC5, crossC5,
      ArbOpportunity.kind, ArbOpportunity.expectedReturn]
  · norm_num [combineOpportunities, exampleHits4, sortByDesc, insertByDesc,
      oppPairGTb, dedupSeen, premC5, prem019, evC5, cross004,
      ArbOpportunity.kind, ArbOpportunity.expectedReturn]

/-- Witness for the amended C5: the kept premium opportunity clears the
floor, and with 3 kinds already seen the loop keeps no duplicate kinds. -/
theorem claim_C5_witness :
    ((0.003 : ℚ) ≤ premC5.expectedReturn) ∧
    (((dedupSeen [premC5, prem019] ["premium", "event", "cross_market"]).map
        ArbOpportunity.kind).Nodup) := by
  constructor
  · refine claim_C5_amended.2.2.2.1 exampleHitsC5 premC5 ?_
    rw [claim_C5_amended.2.2.2.2.2.2.1]
    exact List.mem_cons_self premC5 [evC5]
  · exact (claim_C5_amended.2.2.2.2.2.1 [premC5, prem019]
      ["premium", "event", "cross_market"] (by decide)).1

/-- C9: the market environment classification is recorded in the result
but never influences any sleeve decision or position / trade mutation:
two cycles whose inputs differ only in the benchmark index series yield
identical decisions, summary, position map and trade history. -/
theorem claim_C9 (f : Fetcher) (g1 g2 : String → Except String (List Bar))
    (today : ℤ) (month : Nat) (positions : Positions)
    (tradeHistory : List TradeRecord) :
    Except.map stripEnvironment (executeStrategy f g1 today month positions tradeHistory) =
      Except.map stripEnvironment (executeStrategy f g2 today month positions tradeHistory) := by
  simp only [executeStrategy, Bind.bind, Except.bind, Pure.pure, Except.pure]
  cases harb : evaluateArbitragePosition f today positions with
  | error e => rfl
  | ok arb =>
    dsimp only
    cases hupd : updatePositionsBody f today month positions
        (evaluateStablePosition f today month positions tradeHistory)
        (evaluateAggressivePosition f today month positions tradeHistory) arb with
    | error e => rfl
    | ok p => rfl

/-- Counterexample to C8 as stated: with an open arbitrage position whose
liquidation check passes nothing, a provider error in the profit check
realtime fetch escapes the arbitrage sleeve evaluation and aborts the
whole cycle, contradicting the claim that no exception ever escapes a
sleeve evaluation. -/
theorem claim_C8_counterexample :
    evaluateArbitragePosition fC8 0 positionsC8 = Except.error "连接超时" ∧
    executeStrategy fC8 (fun _ => Except.ok []) 0 1 positionsC8 [] =
      Except.error "连接超时" := by
  constructor <;> rfl

/-- C8 amended: errors raised by collaborator calls inside the guarded
checks are caught there — the signal evaluators return false with the
error text folded into the reason, the detectors return no opportunity —
but the arbitrage sleeve evaluator fetches the realtime quote outside any
guard in its profit check, so a provider error there escapes the sleeve
evaluation (and with it the cycle). -/
theorem claim_C8_amended :
    (∀ (f : Fetcher) (code : String) (sleeve : Sleeve) (msg : String),
      f.getEtfQuote code = Except.error msg →
      checkBasicBuyConditions f code sleeve = (false, "检查基础买入条件出错：" ++ msg)) ∧
    (∀ (f : Fetcher) (code : String) (bp : ℚ) (sleeve : Sleeve) (msg : String),
      f.getEtfQuote code = Except.error msg →
      checkBasicSellConditions f code bp sleeve =
        (false, "检查基础卖出条件出错：" ++ msg, none)) ∧
    (∀ (f : Fetcher) (etf : Candidate) (msg : String),
      f.getEtfRealTimeData etf.code = Except.error msg →
      checkPremiumArbitrage f etf = none) ∧
    (∀ (f : Fetcher) (today : ℤ) (positions : Positions) (cur : ArbPosition) (msg : String),
      positions.arbitrage = some cur →
      (checkLiquidationConditions f today positions cur.code .arbitrage).1 = false →
      f.getEtfRealTimeData cur.etf.code = Except.error msg →
      evaluateArbitragePosition f today positions = Except.error msg) := by
  refine ⟨?_, ?_, ?_, ?_⟩
  · intro f code sleeve msg h
    simp [checkBasicBuyConditions, checkBasicBuyConditionsBody, h, Bind.bind, Except.bind]
  · intro f code bp sleeve msg h
    simp [checkBasicSellConditions, checkBasicSellConditionsBody, h, Bind.bind, Except.bind]
  · intro f etf msg h
    simp [checkPremiumArbitrage, checkPremiumArbitrageBody, h, Bind.bind, Except.bind]
  · intro f today positions cur msg hpos hliq hrt
    simp only [evaluateArbitragePosition, hpos, hliq, hrt, Bind.bind, Except.bind,
      Bool.false_eq_true, if_false]

/-- Witness for the amended C8 at concrete erroring providers. -/
theorem claim_C8_witness :
    checkBasicBuyConditions fErr "510300" Sleeve.stable =
      (false, "检查基础买入条件出错：超时") ∧
    checkBasicSellConditions fErr "510300" 100 Sleeve.stable =
      (false, "检查基础卖出条件出错：超时", none) ∧
    checkPremiumArbitrage fErr candC6 = none ∧
    evaluateArbitragePosition fC8 0 positionsC8 = Except.error "连接超时" := by
  refine ⟨claim_C8_amended.1 fErr "510300" Sleeve.stable "超时" rfl,
    claim_C8_amended.2.1 fErr "510300" 100 Sleeve.stable "超时" rfl,
    claim_C8_amended.2.2.1 fErr candC6 "连接超时" rfl,
    claim_C8_amended.2.2.2 fC8 0 positionsC8 arbPosC8 "连接超时" rfl rfl rfl⟩

/-- C7: applying a switch decision to the stable or to the aggressive
sleeve emits exactly two trade records, the sell leg of the outgoing
holding first and the buy leg of the incoming instrument second, and the
resulting position snapshot carries the buy leg instrument with the
position fraction reset to the sleeve entry ratio (0.30 stable, 0.20
aggressive). -/
theorem claim_C7 (f : Fetcher) (today : ℤ) (month : Nat) (positions : Positions)
    (sellPos : Position) (buyCand : Candidate) (reason : String) (amount : ℚ)
    (q : List Bar) (lastBar : Bar)
    (hq : f.getEtfQuote buyCand.code = Except.ok q)
    (hlast : fromEnd q 0 = some lastBar) :
    (applyStableAction f today month positions (.switch sellPos buyCand reason amount) =
      Except.ok (some (positionFromCandidate buyCand 0.3 lastBar.close today),
        [{ type := "sell", position := .stable, etfCode := sellPos.code,
           amount := sellPos.positionFrac * 12000, reason := reason, month := month },
         { type := "buy", position := .stable, etfCode := buyCand.code,
           amount := amount, reason := reason, month := month }])) ∧
    (applyAggressiveAction f today month positions (.switch sellPos buyCand reason amount) =
      Except.ok (some (positionFromCandidate buyCand 0.2 lastBar.close today),
        [{ type := "sell", position := .aggressive, etfCode := sellPos.code,
           amount := sellPos.positionFrac * 8000, reason := reason, month := month },
         { type := "buy", position := .aggressive, etfCode := buyCand.code,
           amount := amount, reason := reason, month := month }])) ∧
    (positionFromCandidate buyCand (0.3 : ℚ) lastBar.close today).code = buyCand.code ∧
    (positionFromCandidate buyCand (0.3 : ℚ) lastBar.close today).positionFrac = 0.3 ∧
    (positionFromCandidate buyCand (0.2 : ℚ) lastBar.close today).positionFrac = 0.2 := by
  refine ⟨?_, ?_, rfl, rfl, rfl⟩
  · simp [applyStableAction, lastCloseOf, hq, hlast, Bind.bind, Except.bind,
      Pure.pure, Except.pure]
  · simp [applyAggressiveAction, lastCloseOf, hq, hlast, Bind.bind, Except.bind,
      Pure.pure, Except.pure]

/-- Witness for C7 at a concrete switch decision. -/
theorem claim_C7_witness :
    applyStableAction (constFetcher [sBar84] none 0 none) 7 4 positionsC8
      (.switch posC7 candC6 "r" 3600) =
      Except.ok (some (positionFromCandidate candC6 0.3 sBar84.close 7),
        [{ type := "sell", position := .stable, etfCode := posC7.code,
           amount := posC7.positionFrac * 12000, reason := "r", month := 4 },
         { type := "buy", position := .stable, etfCode := candC6.code,
           amount := 3600, reason := "r", month := 4 }]) := by
  exact (claim_C7 (constFetcher [sBar84] none 0 none) 7 4 positionsC8 posC7 candC6
    "r" 3600 [sBar84] sBar84 rfl (by decide)).1

/-- The switch check degrades to none whenever the sell check on the
current holding is not satisfied. -/
lemma checkIntraSwitch_of_sell_false (f : Fetcher) (month : Nat)
    (tradeHistory : List TradeRecord) (current : Position)
    (candidates : List Candidate) (positionType : Sleeve)
    (h : (checkBasicSellConditions f current.code current.buyPrice positionType).1 = false) :
    checkIntraPositionSwitch f month tradeHistory current candidates positionType =
      (none, "当前持仓未满足卖出条件，无需调仓") := by
  have hbody : checkIntraPositionSwitchBody f month tradeHistory current candidates positionType =
      Except.ok (none, "当前持仓未满足卖出条件，无需调仓") := by
    simp [checkIntraPositionSwitchBody, h, Bind.bind, Except.bind, Pure.pure, Except.pure]
  simp [checkIntraPositionSwitch, hbody]

/-- The switch check degrades to none whenever the history already counts
3 switch records for the sleeve in the current month. -/
lemma checkIntraSwitch_of_limit (f : Fetcher) (month : Nat)
    (tradeHistory : List TradeRecord) (current : Position)
    (candidates : List Candidate) (positionType : Sleeve)
    (h : 3 ≤ monthlySwitchCount tradeHistory positionType month) :
    (checkIntraPositionSwitch f month tradeHistory current candidates positionType).1 = none := by
  cases hsell : (checkBasicSellConditions f current.code current.buyPrice positionType).1 with
  | false =>
    rw [checkIntraSwitch_of_sell_false f month tradeHistory current candidates positionType hsell]
  | true =>
    have hbody : checkIntraPositionSwitchBody f month tradeHistory current candidates positionType =
        Except.ok (none, "本月已调仓" ++ toString (monthlySwitchCount tradeHistory positionType month)
          ++ "次≥3次，限制调仓") := by
      simp [checkIntraPositionSwitchBody, hsell, h, Bind.bind, Except.bind, Pure.pure, Except.pure]
    simp [checkIntraPositionSwitch, hbody]

/-- The stable sleeve evaluator never emits a switch decision: the switch
branch is reached only when the sell check failed, and the switch check
re-runs that same sell check and requires it to pass. -/
lemma evaluateStable_no_switch (f : Fetcher) (today : ℤ) (month : Nat)
    (positions : Positions) (tradeHistory : List TradeRecord) :
    SADecision.isSwitchB (evaluateStablePosition f today month positions tradeHistory) = false := by
  simp only [evaluateStablePosition]
  cases hcur : positions.stable with
  | none =>
    cases h : findFirstBuy f Sleeve.stable f.getStableCandidates with
    | none => rfl
    | some p => cases p; rfl
  | some current =>
    dsimp only
    by_cases hliq : (checkLiquidationConditions f today positions current.code Sleeve.stable).1
    · simp [hliq, SADecision.isSwitchB]
    · by_cases hsell : (checkBasicSellConditions f current.code current.buyPrice Sleeve.stable).1
      · by_cases hfrac : (0.3 : ℚ) < current.positionFrac
        · simp [hliq, hsell, hfrac, SADecision.isSwitchB]
        · simp [hliq, hsell, hfrac, SADecision.isSwitchB]
      · rw [if_neg hliq, if_neg hsell,
          checkIntraSwitch_of_sell_false f month tradeHistory current f.getStableCandidates
            Sleeve.stable (by simpa using hsell)]
        by_cases hadd : ((checkAddPositionConditions f today current.code
            (current.lastAddDate.getD d20000101)).1 &&
            decide (current.positionFrac < 0.7)) = true
        · simp [hadd, SADecision.isSwitchB]
        · simp [hadd, SADecision.isSwitchB]

/-- The aggressive sleeve evaluator never emits a switch decision. -/
lemma evaluateAggressive_no_switch (f : Fetcher) (today : ℤ) (month : Nat)
    (positions : Positions) (tradeHistory : List TradeRecord) :
    SADecision.isSwitchB (evaluateAggressivePosition f today month positions tradeHistory) = false := by
  simp only [evaluateAggressivePosition]
  cases hcur : positions.aggressive with
  | none =>
    cases h : findFirstBuy f Sleeve.aggressive f.getAggressiveCandidates with
    | none => rfl
    | some p => cases p; rfl
  | some current =>
    dsimp only
    by_cases hliq : (checkLiquidationConditions f today positions current.code Sleeve.aggressive).1
    · simp [hliq, SADecision.isSwitchB]
    · by_cases hsell : (checkBasicSellConditions f current.code current.buyPrice Sleeve.aggressive).1
      · simp [hliq, hsell, SADecision.isSwitchB]
      · rw [if_neg hliq, if_neg hsell,
          checkIntraSwitch_of_sell_false f month tradeHistory current f.getAggressiveCandidates
            Sleeve.aggressive (by simpa using hsell)]
        by_cases hadd : ((checkAddPositionConditions f today current.code
            (current.lastAddDate.getD d20000101)).1 &&
            decide (current.positionFrac < 0.6)) = true
        · simp [hadd, SADecision.isSwitchB]
        · simp [hadd, SADecision.isSwitchB]

/-- C3: the per-sleeve monthly switch rate never exceeds 3.  In every
cycle the stable and aggressive evaluators emit no switch decision at all
(the switch branch requires the very sell check that the evaluator has
just seen fail), and whenever the persisted history already counts 3
switch records for the sleeve in the current month, the switch check
itself degrades to none, so a decision falls through to hold or a plain
sell. -/
theorem claim_C3 (f : Fetcher) (today : ℤ) (month : Nat) (positions : Positions)
    (tradeHistory : List TradeRecord) :
    SADecision.isSwitchB (evaluateStablePosition f today month positions tradeHistory) = false ∧
    SADecision.isSwitchB (evaluateAggressivePosition f today month positions tradeHistory) = false ∧
    (∀ (current : Position) (candidates : List Candidate) (positionType : Sleeve),
      3 ≤ monthlySwitchCount tradeHistory positionType month →
      (checkIntraPositionSwitch f month tradeHistory current candidates positionType).1 = none) :=
  ⟨evaluateStable_no_switch f today month positions tradeHistory,
   evaluateAggressive_no_switch f today month positions tradeHistory,
   fun current candidates positionType h =>
     checkIntraSwitch_of_limit f month tradeHistory current candidates positionType h⟩

/-- Witness for C3: with 3 switch records on file for the stable sleeve in
the current month, the switch check returns no candidate. -/
theorem claim_C3_witness :
    3 ≤ monthlySwitchCount [switchRec, switchRec, switchRec] Sleeve.stable 1 ∧
    (checkIntraPositionSwitch (constFetcher [] none 0 none) 1
      [switchRec, switchRec, switchRec] posC7 [] Sleeve.stable).1 = none := by
  refine ⟨by decide, ?_⟩
  exact (claim_C3 (constFetcher [] none 0 none) 0 1 positionsC8
    [switchRec, switchRec, switchRec]).2.2 posC7 [] Sleeve.stable (by decide)

/-- Every decision the stable evaluator can produce, with the constraints
the evaluator imposes on its fraction fields. -/
lemma evaluateStable_shape (f : Fetcher) (today : ℤ) (month : Nat)
    (positions : Positions) (tradeHistory : List TradeRecord) :
    (∃ e r, evaluateStablePosition f today month positions tradeHistory =
      SADecision.hold e r) ∨
    (∃ c r, evaluateStablePosition f today month positions tradeHistory =
      SADecision.buy c r (STABLE_CAPITAL * 0.3) 0.3) ∨
    (∃ cur r fl, positions.stable = some cur ∧
      evaluateStablePosition f today month positions tradeHistory =
        SADecision.sell cur r fl) ∨
    (∃ cur r, positions.stable = some cur ∧
      evaluateStablePosition f today month positions tradeHistory =
        SADecision.sellPart cur r 0.5 (cur.positionFrac * 0.5)) ∨
    (∃ cur r a, positions.stable = some cur ∧ cur.positionFrac < 0.7 ∧
      evaluateStablePosition f today month positions tradeHistory =
        SADecision.add cur r a
          (cur.positionFrac + min 0.2 (0.7 - cur.positionFrac)) today) := by
  simp only [evaluateStablePosition]
  cases hcur : positions.stable with
  | none =>
    cases h : findFirstBuy f Sleeve.stable f.getStableCandidates with
    | none => exact Or.inl ⟨none, _, rfl⟩
    | some p =>
      obtain ⟨c, r⟩ := p
      exact Or.inr (Or.inl ⟨c, r, rfl⟩)
  | some current =>
    dsimp only
    by_cases hliq : (checkLiquidationConditions f today positions current.code Sleeve.stable).1 = true
    · exact Or.inr (Or.inr (Or.inl ⟨current,
        (checkLiquidationConditions f today positions current.code Sleeve.stable).2, true,
        rfl, by rw [if_pos hliq]⟩))
    · by_cases hsell : (checkBasicSellConditions f current.code current.buyPrice Sleeve.stable).1 = true
      · by_cases hfrac : (0.3 : ℚ) < current.positionFrac
        · exact Or.inr (Or.inr (Or.inr (Or.inl ⟨current,
            (checkBasicSellConditions f current.code current.buyPrice Sleeve.stable).2.1,
            rfl, by rw [if_neg hliq, if_pos hsell, if_pos hfrac]⟩)))
        · exact Or.inr (Or.inr (Or.inl ⟨current,
            (checkBasicSellConditions f current.code current.buyPrice Sleeve.stable).2.1,
            false, rfl, by rw [if_neg hliq, if_pos hsell, if_neg hfrac]⟩))
      · by_cases hadd : ((checkAddPositionConditions f today current.code
            (current.lastAddDate.getD d20000101)).1 &&
            decide (current.positionFrac < 0.7)) = true
        · have hf7 : current.positionFrac < 0.7 :=
            of_decide_eq_true ((Bool.and_eq_true _ _).mp hadd).2
          refine Or.inr (Or.inr (Or.inr (Or.inr ⟨current,
            (checkAddPositionConditions f today current.code
              (current.lastAddDate.getD d20000101)).2,
            STABLE_CAPITAL * min 0.2 (0.7 - current.positionFrac), rfl, hf7, ?_⟩)))
          rw [if_neg hliq, if_neg hsell,
            checkIntraSwitch_of_sell_false f month tradeHistory current f.getStableCandidates
              Sleeve.stable (by simpa using hsell)]
          rw [if_pos hadd]
        · refine Or.inl ⟨some current, "稳健仓持仓符合持有条件，无需操作", ?_⟩
          rw [if_neg hliq, if_neg hsell,
            checkIntraSwitch_of_sell_false f month tradeHistory current f.getStableCandidates
              Sleeve.stable (by simpa using hsell)]
          rw [if_neg hadd]

/-- Every decision the aggressive evaluator can produce, with the
constraints the evaluator imposes on its fraction fields. -/
lemma evaluateAggressive_shape (f : Fetcher) (today : ℤ) (month : Nat)
    (positions : Positions) (tradeHistory : List TradeRecord) :
    (∃ e r, evaluateAggressivePosition f today month positions tradeHistory =
      SADecision.hold e r) ∨
    (∃ c r, evaluateAggressivePosition f today month positions tradeHistory =
      SADecision.buy c r (AGGRESSIVE_CAPITAL * 0.2) 0.2) ∨
    (∃ cur r fl, positions.aggressive = some cur ∧
      evaluateAggressivePosition f today month positions tradeHistory =
        SADecision.sell cur r fl) ∨
    (∃ cur r a, positions.aggressive = some cur ∧ cur.positionFrac < 0.6 ∧
      evaluateAggressivePosition f today month positions tradeHistory =
        SADecision.add cur r a
          (cur.positionFrac + min 0.15 (0.6 - cur.positionFrac)) today) := by
  simp only [evaluateAggressivePosition]
  cases hcur : positions.aggressive with
  | none =>
    cases h : findFirstBuy f Sleeve.aggressive f.getAggressiveCandidates with
    | none => exact Or.inl ⟨none, _, rfl⟩
    | some p =>
      obtain ⟨c, r⟩ := p
      exact Or.inr (Or.inl ⟨c, r, rfl⟩)
  | some current =>
    dsimp only
    by_cases hliq : (checkLiquidationConditions f today positions current.code Sleeve.aggressive).1 = true
    · exact Or.inr (Or.inr (Or.inl ⟨current,
        (checkLiquidationConditions f today positions current.code Sleeve.aggressive).2, true,
        rfl, by rw [if_pos hliq]⟩))
    · by_cases hsell : (checkBasicSellConditions f current.code current.buyPrice Sleeve.aggressive).1 = true
      · exact Or.inr (Or.inr (Or.inl ⟨current,
          (checkBasicSellConditions f current.code current.buyPrice Sleeve.aggressive).2.1,
          false, rfl, by rw [if_neg hliq, if_pos hsell]⟩))
      · by_cases hadd : ((checkAddPositionConditions f today current.code
            (current.lastAddDate.getD d20000101)).1 &&
            decide (current.positionFrac < 0.6)) = true
        · have hf6 : current.positionFrac < 0.6 :=
            of_decide_eq_true ((Bool.and_eq_true _ _).mp hadd).2
          refine Or.inr (Or.inr (Or.inr ⟨current,
            (checkAddPositionConditions f today current.code
              (current.lastAddDate.getD d20000101)).2,
            AGGRESSIVE_CAPITAL * min 0.15 (0.6 - current.positionFrac), rfl, hf6, ?_⟩))
          rw [if_neg hliq, if_neg hsell,
            checkIntraSwitch_of_sell_false f month tradeHistory current f.getAggressiveCandidates
              Sleeve.aggressive (by simpa using hsell)]
          rw [if_pos hadd]
        · refine Or.inl ⟨some current, "激进仓持仓符合持有条件，无需操作", ?_⟩
          rw [if_neg hliq, if_neg hsell,
            checkIntraSwitch_of_sell_false f month tradeHistory current f.getAggressiveCandidates
              Sleeve.aggressive (by simpa using hsell)]
          rw [if_neg hadd]

/-- A successful position update decomposes into successful per-sleeve
applications, and the stable and aggressive components of the saved map
are exactly their outputs. -/
lemma updatePositions_ok (f : Fetcher) (today : ℤ) (month : Nat)
    (positions : Positions) (sa aa : SADecision) (ar : ArbDecision)
    (p2 : Positions) (recs : List TradeRecord)
    (h : updatePositionsBody f today month positions sa aa ar = Except.ok (p2, recs)) :
    (∃ sp srecs, applyStableAction f today month positions sa = Except.ok (sp, srecs) ∧
      p2.stable = sp) ∧
    (∃ ap arecs, applyAggressiveAction f today month positions aa = Except.ok (ap, arecs) ∧
      p2.aggressive = ap) := by
  cases hsa : applyStableAction f today month positions sa with
  | error e => simp [updatePositionsBody, hsa, Bind.bind, Except.bind] at h
  | ok spr =>
    obtain ⟨sp1, srecs1⟩ := spr
    cases haa : applyAggressiveAction f today month positions aa with
    | error e => simp [updatePositionsBody, hsa, haa, Bind.bind, Except.bind] at h
    | ok apr =>
      obtain ⟨ap1, arecs1⟩ := apr
      cases har : applyArbitrageAction month positions ar with
      | error e => simp [updatePositionsBody, hsa, haa, har, Bind.bind, Except.bind] at h
      | ok rpr =>
        obtain ⟨rp1, rrecs1⟩ := rpr
        simp only [updatePositionsBody, hsa, haa, har, Bind.bind, Except.bind,
          Pure.pure, Except.pure, Except.ok.injEq, Prod.mk.injEq] at h
        obtain ⟨hA, hB⟩ := h
        exact ⟨⟨sp1, srecs1, rfl, by rw [← hA]⟩, ⟨ap1, arecs1, rfl, by rw [← hA]⟩⟩

/-- C4: applying the cycle decisions keeps each sleeve fraction within
[0, ceiling] (0.70 stable, 0.60 aggressive), and an add decision is
emitted only when the current fraction is below the ceiling, incrementing
it by exactly min(step, ceiling - current) with step 0.20 stable and 0.15
aggressive. -/
theorem claim_C4 (f : Fetcher) (today : ℤ) (month : Nat) (positions : Positions)
    (tradeHistory : List TradeRecord) (arbitrageAction : ArbDecision)
    (hs : ∀ p, positions.stable = some p → 0 ≤ p.positionFrac ∧ p.positionFrac ≤ 0.7)
    (ha : ∀ p, positions.aggressive = some p → 0 ≤ p.positionFrac ∧ p.positionFrac ≤ 0.6) :
    (∀ p2 recs,
      updatePositionsBody f today month positions
        (evaluateStablePosition f today month positions tradeHistory)
        (evaluateAggressivePosition f today month positions tradeHistory)
        arbitrageAction = Except.ok (p2, recs) →
      (∀ p, p2.stable = some p → 0 ≤ p.positionFrac ∧ p.positionFrac ≤ 0.7) ∧
      (∀ p, p2.aggressive = some p → 0 ≤ p.positionFrac ∧ p.positionFrac ≤ 0.6)) ∧
    (∀ etf reason amount newFrac lad cur, positions.stable = some cur →
      evaluateStablePosition f today month positions tradeHistory =
        SADecision.add etf reason amount newFrac lad →
      cur.positionFrac < 0.7 ∧
        newFrac = cur.positionFrac + min 0.2 (0.7 - cur.positionFrac)) ∧
    (∀ etf reason amount newFrac lad cur, positions.aggressive = some cur →
      evaluateAggressivePosition f today month positions tradeHistory =
        SADecision.add etf reason amount newFrac lad →
      cur.positionFrac < 0.6 ∧
        newFrac = cur.positionFrac + min 0.15 (0.6 - cur.positionFrac)) := by
  refine ⟨?_, ?_, ?_⟩
  · intro p2 recs hupd
    obtain ⟨⟨sp, srecs, hsap, hps⟩, ⟨ap, arecs, haap, hpa⟩⟩ :=
      updatePositions_ok f today month positions _ _ _ p2 recs hupd
    constructor
    · intro p hp
      rw [hps] at hp
      rcases evaluateStable_shape f today month positions tradeHistory with
        ⟨e, r, hev⟩ | ⟨c, r, hev⟩ | ⟨cur, r, fl, hcur, hev⟩ | ⟨cur, r, hcur, hev⟩ |
        ⟨cur, r, a, hcur, hfr, hev⟩
      · rw [hev] at hsap
        simp only [applyStableAction, Pure.pure, Except.pure, Except.ok.injEq,
          Prod.mk.injEq] at hsap
        rw [← hsap.1] at hp
        exact hs p hp
      · rw [hev] at hsap
        cases hlc : lastCloseOf f c.code with
        | error e2 =>
          simp [applyStableAction, hlc, Bind.bind, Except.bind] at hsap
        | ok price =>
          simp only [applyStableAction, hlc, Bind.bind, Except.bind, Pure.pure,
            Except.pure, Except.ok.injEq, Prod.mk.injEq] at hsap
          rw [← hsap.1] at hp
          obtain rfl := Option.some.inj hp
          norm_num [positionFromCandidate]
      · rw [hev] at hsap
        simp only [applyStableAction, Pure.pure, Except.pure, Except.ok.injEq,
          Prod.mk.injEq] at hsap
        rw [← hsap.1] at hp
        exact Option.noConfusion hp
      · rw [hev] at hsap
        simp only [applyStableAction, hcur, Pure.pure, Except.pure, Except.ok.injEq,
          Prod.mk.injEq] at hsap
        rw [← hsap.1] at hp
        obtain rfl := Option.some.inj hp
        obtain ⟨hc0, hc7⟩ := hs cur hcur
        constructor
        · simp only []
          linarith
        · simp only []
          linarith
      · rw [hev] at hsap
        simp only [applyStableAction, hcur, Pure.pure, Except.pure, Except.ok.injEq,
          Prod.mk.injEq] at hsap
        rw [← hsap.1] at hp
        obtain rfl := Option.some.inj hp
        obtain ⟨hc0, hc7⟩ := hs cur hcur
        have hmr : min (0.2 : ℚ) (0.7 - cur.positionFrac) ≤ 0.7 - cur.positionFrac :=
          min_le_right _ _
        have hm0 : (0 : ℚ) ≤ min (0.2 : ℚ) (0.7 - cur.positionFrac) :=
          le_min (by norm_num) (by linarith)
        constructor
        · simp only []
          linarith
        · simp only []
          linarith
    · intro p hp
      rw [hpa] at hp
      rcases evaluateAggressive_shape f today month positions tradeHistory with
        ⟨e, r, hev⟩ | ⟨c, r, hev⟩ | ⟨cur, r, fl, hcur, hev⟩ | ⟨cur, r, a, hcur, hfr, hev⟩
      · rw [hev] at haap
        simp only [applyAggressiveAction, Pure.pure, Except.pure, Except.ok.injEq,
          Prod.mk.injEq] at haap
        rw [← haap.1] at hp
        exact ha p hp
      · rw [hev] at haap
        cases hlc : lastCloseOf f c.code with
        | error e2 =>
          simp [applyAggressiveAction, hlc, Bind.bind, Except.bind] at haap
        | ok price =>
          simp only [applyAggressiveAction, hlc, Bind.bind, Except.bind, Pure.pure,
            Except.pure, Except.ok.injEq, Prod.mk.injEq] at haap
          rw [← haap.1] at hp
          obtain rfl := Option.some.inj hp
          norm_num [positionFromCandidate]
      · rw [hev] at haap
        simp only [applyAggressiveAction, Pure.pure, Except.pure, Except.ok.injEq,
          Prod.mk.injEq] at haap
        rw [← haap.1] at hp
        exact Option.noConfusion hp
      · rw [hev] at haap
        simp only [applyAggressiveAction, hcur, Pure.pure, Except.pure, Except.ok.injEq,
          Prod.mk.injEq] at haap
        rw [← haap.1] at hp
        obtain rfl := Option.some.inj hp
        obtain ⟨hc0, hc6⟩ := ha cur hcur
        have hmr : min (0.15 : ℚ) (0.6 - cur.positionFrac) ≤ 0.6 - cur.positionFrac :=
          min_le_right _ _
        have hm0 : (0 : ℚ) ≤ min (0.15 : ℚ) (0.6 - cur.positionFrac) :=
          le_min (by norm_num) (by linarith)
        constructor
        · simp only []
          linarith
        · simp only []
          linarith
  · intro etf reason amount newFrac lad cur hcur hev
    rcases evaluateStable_shape f today month positions tradeHistory with
      ⟨e, r, hev2⟩ | ⟨c, r, hev2⟩ | ⟨cur2, r, fl, hcur2, hev2⟩ | ⟨cur2, r, hcur2, hev2⟩ |
      ⟨cur2, r, a, hcur2, hfr, hev2⟩ <;> rw [hev2] at hev
    · exact SADecision.noConfusion hev
    · exact SADecision.noConfusion hev
    · exact SADecision.noConfusion hev
    · exact SADecision.noConfusion hev
    · obtain ⟨he, hr, hamt, hnf, hl⟩ := SADecision.add.inj hev.symm
      obtain rfl : cur2 = cur := by
        rw [hcur] at hcur2
        exact (Option.some.inj hcur2).symm
      exact ⟨hfr, hnf⟩
  · intro etf reason amount newFrac lad cur hcur hev
    rcases evaluateAggressive_shape f today month positions tradeHistory with
      ⟨e, r, hev2⟩ | ⟨c, r, hev2⟩ | ⟨cur2, r, fl, hcur2, hev2⟩ |
      ⟨cur2, r, a, hcur2, hfr, hev2⟩ <;> rw [hev2] at hev
    · exact SADecision.noConfusion hev
    · exact SADecision.noConfusion hev
    · exact SADecision.noConfusion hev
    · obtain ⟨he, hr, hamt, hnf, hl⟩ := SADecision.add.inj hev.symm
      obtain rfl : cur2 = cur := by
        rw [hcur] at hcur2
        exact (Option.some.inj hcur2).symm
      exact ⟨hfr, hnf⟩

/-- Witness for C4: the invariant instantiated on a concrete cycle whose
decisions are holds keeps the stable fraction 0.3 within [0, 0.7]. -/
theorem claim_C4_witness :
    0 ≤ posC7.positionFrac ∧ posC7.positionFrac ≤ 0.7 := by
  have h := (claim_C4 (constFetcher [] none 0 none) 0 1 positionsW4 []
    (ArbDecision.hold none "")
    (by
      intro p hp
      obtain rfl := Option.some.inj hp
      norm_num [posC7])
    (by
      intro p hp
      exact Option.noConfusion hp)).1 positionsW4 [] rfl
  exact h.1 posC7 rfl

end Yupan
